import Mathlib

/-!
# Scene Structural Optimization Engine — verification development

A shallow embedding of the core of the TheNext3D scene-optimization engine:

* `SceneAnalyzer.analyze`   (src/core/analysis/SceneAnalyzer.ts)
* `OptimizationEngine.evaluate` (the issue detector / scorer)
* `InstancingEngine.convertToInstanced` (src/core/actions/InstancingEngine.ts)
* `MergeEngine.mergeMeshes` (src/core/actions/MergeEngine.ts)
* `LODEngine.generateLOD`   (src/core/actions/LODEngine.ts)

Modelling conventions:

* three.js `Matrix4` values are 4×4 rational matrices.  `Matrix4.invert`
  returns the zero matrix when the determinant is zero (three.js r123+
  behaviour), modelled by `inv4`.
* An `Object3D`'s position/rotation/scale are carried only through the
  composed local matrix (`NodeCore.localMatrix`); `updateWorldMatrix`
  corresponds to taking the product of the local matrices along the
  ancestor chain, which the traversal functions compute directly.
* Vertex buffer contents are not carried: a buffer attribute is its
  `itemSize` and `count`, and a geometry additionally carries the size of
  its computed bounding box (the only data the analyzer reads from the
  position buffer).  Consequently an in-place matrix bake
  (`applyMatrix4` on a geometry) is the identity on the modelled fields.
* `userData.optimized` is `NodeCore.tag`; the stored wall-clock timestamp
  is not modelled (no claim mentions it).
* Mesh `material` fields holding arrays of materials are not modelled;
  every mesh node carries a single material (the `Array.isArray` branch
  of the analyzer is the one-element case).
* Fresh uuids produced by `clone()` / object construction are surfaced as
  explicit parameters of the transforms.
-/

/-! ## 4×4 matrices -/

abbrev Mat4 := Matrix (Fin 4) (Fin 4) ℚ

/-- three.js `Matrix4.invert`: the inverse when the determinant is nonzero,
the zero matrix otherwise. -/
def inv4 (A : Mat4) : Mat4 := if A.det = 0 then 0 else A.det⁻¹ • A.adjugate

/-- Entrywise closeness of two matrices up to a tolerance. -/
def matNear (A B : Mat4) (eps : ℚ) : Prop := ∀ i j, |A i j - B i j| ≤ eps

instance (A B : Mat4) (eps : ℚ) : Decidable (matNear A B eps) := by
  unfold matNear; infer_instance

/-! ## Geometry / material / texture data -/

/-- A buffer attribute, reduced to the data the claims observe:
`itemSize` and the per-vertex `count`. -/
structure GeomAttr where
  itemSize : Nat
  count : Nat
  deriving DecidableEq

/-- A `BufferGeometry`: named attribute buffers (insertion-ordered, as JS
object keys), an optional index buffer (its length), and the size of the
bounding box that `computeBoundingBox` produces from the position data. -/
structure Geometry where
  uuid : String
  attributes : List (String × GeomAttr)
  index : Option Nat
  bboxSize : ℚ × ℚ × ℚ
  deriving DecidableEq

/-- Vertex count: `geometry.attributes.position ? position.count : 0`. -/
def Geometry.positionCount (g : Geometry) : Nat :=
  ((g.attributes.lookup "position").map GeomAttr.count).getD 0

/-- `geometry.clone()` — fresh uuid, same buffers. -/
def Geometry.cloneWith (g : Geometry) (freshUuid : String) : Geometry :=
  { g with uuid := freshUuid }

/-- `geometry.applyMatrix4(m)` bakes `m` into the vertex data.  The modelled
fields (attribute names/sizes/counts, index length) are unchanged; the
bounding box of the baked data is not tracked because no claim reads it
(baked geometries only ever sit inside provenance-tagged nodes, which the
analyzer skips). -/
def Geometry.bake (g : Geometry) (_m : Mat4) : Geometry := g

structure Texture where
  uuid : String
  width : Nat
  height : Nat
  deriving DecidableEq

/-- A material: uuid plus the six texture-map slots the analyzer inspects,
in the order of its `maps` array. -/
structure Material where
  uuid : String
  map : Option Texture
  normalMap : Option Texture
  roughnessMap : Option Texture
  metalnessMap : Option Texture
  emissiveMap : Option Texture
  aoMap : Option Texture
  deriving DecidableEq

/-- The analyzer's `maps` array:
`['map','normalMap','roughnessMap','metalnessMap','emissiveMap','aoMap']`. -/
def Material.mapSlots (m : Material) : List (Option Texture) :=
  [m.map, m.normalMap, m.roughnessMap, m.metalnessMap, m.emissiveMap, m.aoMap]

/-! ## Scene graph -/

/-- The `userData.optimized` provenance tag (timestamp not modelled). -/
structure ProvTag where
  ptype : String
  originalCount : Option Nat
  deriving DecidableEq

inductive NodeKind where
  | group
  | mesh (geometry : Geometry) (material : Material)
      (skinned : Bool) (hasMorphs : Bool)
  | instanced (geometry : Geometry) (material : Material)
      (count : Nat) (matrices : List Mat4)
  | lodContainer (distances : List ℚ)
  deriving DecidableEq

/-- `instanceof THREE.Mesh` data: `InstancedMesh` extends `Mesh`, has no
skeleton and no morph-target influences. -/
def NodeKind.meshParts : NodeKind → Option (Geometry × Material × Bool × Bool)
  | .mesh g m sk mo => some (g, m, sk, mo)
  | .instanced g m _ _ => some (g, m, false, false)
  | _ => none

structure NodeCore where
  uuid : String
  localMatrix : Mat4
  tag : Option ProvTag
  kind : NodeKind
  deriving DecidableEq

mutual
inductive SceneNode where
  | node (core : NodeCore) (children : SceneForest)
inductive SceneForest where
  | nil
  | cons (t : SceneNode) (ts : SceneForest)
end

def SceneNode.core : SceneNode → NodeCore
  | .node c _ => c

def SceneNode.children : SceneNode → SceneForest
  | .node _ cs => cs

def rootUuid (t : SceneNode) : String := t.core.uuid

def SceneForest.push (n : SceneNode) : SceneForest → SceneForest
  | .nil => .cons n .nil
  | .cons t ts => .cons t (ts.push n)

def SceneForest.append : SceneForest → SceneForest → SceneForest
  | .nil, ys => ys
  | .cons t ts, ys => .cons t (ts.append ys)

def SceneForest.ofList : List SceneNode → SceneForest
  | [] => .nil
  | t :: ts => .cons t (ofList ts)

mutual
/-- `Object3D.traverseCores` visit order: the node itself, then each child
subtree in order.  Returns the visited cores. -/
def traverseCores : SceneNode → List NodeCore
  | .node c cs => c :: traverseCoresF cs
def traverseCoresF : SceneForest → List NodeCore
  | .nil => []
  | .cons t ts => traverseCores t ++ traverseCoresF ts
end

mutual
/-- Add `n` as the last child of the node whose uuid is `pU` (the scene is
assumed to have unique uuids, so at most one node matches). -/
def attachChild (pU : String) (n : SceneNode) : SceneNode → SceneNode
  | .node c cs =>
    if c.uuid = pU then .node c (cs.push n) else .node c (attachChildF pU n cs)
def attachChildF (pU : String) (n : SceneNode) : SceneForest → SceneForest
  | .nil => .nil
  | .cons t ts => .cons (attachChild pU n t) (attachChildF pU n ts)
end

mutual
/-- `parent.remove(node)` for the node with uuid `u`: drop the child (and
its subtree) from its parent's child list.  The root itself is never
removed (it has no parent). -/
def detachNode (u : String) : SceneNode → SceneNode
  | .node c cs => .node c (detachNodeF u cs)
def detachNodeF (u : String) : SceneForest → SceneForest
  | .nil => .nil
  | .cons t ts =>
    if rootUuid t = u then detachNodeF u ts
    else .cons (detachNode u t) (detachNodeF u ts)
end

mutual
/-- `Object3D.clone()`: recursively copy the subtree.  Geometry and
material references are shared, `userData` (the tag) is copied, the local
transform is copied, and every copied node receives a fresh uuid — here
given by renaming through `f`. -/
def cloneTree (f : String → String) : SceneNode → SceneNode
  | .node c cs => .node { c with uuid := f c.uuid } (cloneTreeF f cs)
def cloneTreeF (f : String → String) : SceneForest → SceneForest
  | .nil => .nil
  | .cons t ts => .cons (cloneTree f t) (cloneTreeF f ts)
end

/-- Reset the root's position/rotation/scale to the identity placement. -/
def setIdentityLocal : SceneNode → SceneNode
  | .node c cs => .node { c with localMatrix := 1 } cs

/-! ## Primitive scene mutations

The transforms mutate the graph through exactly two primitives —
`parent.add(child)` and `parent.remove(child)` — recorded here as an
operation list so that the order of mutations (replacement attached
before originals are detached) is part of the model. -/

inductive SceneOp where
  | attach (parentUuid : String) (child : SceneNode)
  | detach (uuid : String)

def applyOp (t : SceneNode) : SceneOp → SceneNode
  | .attach p n => attachChild p n t
  | .detach u => detachNode u t

def applyOps (t : SceneNode) (ops : List SceneOp) : SceneNode :=
  ops.foldl applyOp t

/-! ## Resolution traversal

`scene.traverseCores(node => { if (node instanceof THREE.Mesh &&
uuids.includes(node.uuid)) ... })`, additionally recording the data the
engines read from each hit: the world matrix (`updateWorldMatrix(true,
false)` composes the ancestor chain) and the parent's uuid and world
matrix. -/

structure MeshHit where
  core : NodeCore
  geom : Geometry
  mat : Material
  skinned : Bool
  hasMorphs : Bool
  world : Mat4
  parent : Option (String × Mat4)
  tree : SceneNode

mutual
def collectGo (us : List String) (p : Option (String × Mat4)) (w : Mat4) :
    SceneNode → List MeshHit
  | .node c cs =>
    let w' := w * c.localMatrix
    (match c.kind.meshParts with
      | some gp =>
        if c.uuid ∈ us then
          [⟨c, gp.1, gp.2.1, gp.2.2.1, gp.2.2.2, w', p, .node c cs⟩]
        else []
      | none => []) ++ collectGoF us (some (c.uuid, w')) w' cs
def collectGoF (us : List String) (p : Option (String × Mat4)) (w : Mat4) :
    SceneForest → List MeshHit
  | .nil => []
  | .cons t ts => collectGo us p w t ++ collectGoF us p w ts
end

/-- Resolve uuids against the scene, in traversal order.  The scene root
has no parent, and its world matrix is its local matrix. -/
def collectMeshes (scene : SceneNode) (us : List String) : List MeshHit :=
  collectGo us none 1 scene

/-! ## InstancingEngine (src/core/actions/InstancingEngine.ts) -/

namespace InstancingEngine

/-- `InstancingEngine.convertToInstanced(scene, meshUuids)`.

Control flow of the source, in order: fewer than 2 supplied uuids → null;
resolve via traversal; zero resolved → null; take the first resolved mesh
as template, clone its geometry, reuse its material; no parent → null;
build the `InstancedMesh` (capacity = resolved count, per-instance matrix
`parent.matrixWorld.invert() * mesh.matrixWorld`, provenance tag with
`originalCount` = resolved count); attach it to the parent; then remove
every resolved mesh.  `instancedUuid`/`clonedGeoUuid` stand for the fresh
uuids three.js generates. -/
def convertToInstanced (scene : SceneNode) (meshUuids : List String)
    (instancedUuid clonedGeoUuid : String) :
    Option SceneNode × List SceneOp :=
  if meshUuids.length < 2 then (none, [])
  else
    match collectMeshes scene meshUuids with
    | [] => (none, [])
    | m0 :: rest =>
      match m0.parent with
      | none => (none, [])
      | some (pU, pW) =>
        let ms := m0 :: rest
        let worldToLocal := inv4 pW
        let instNode : SceneNode := .node
          { uuid := instancedUuid
            localMatrix := 1
            tag := some ⟨"instancing", some ms.length⟩
            kind := .instanced (m0.geom.cloneWith clonedGeoUuid) m0.mat
              ms.length (ms.map (fun h => worldToLocal * h.world)) }
          .nil
        (some instNode,
          .attach pU instNode :: ms.map (fun h => .detach h.core.uuid))

/-- The transform together with its effect on the scene graph. -/
def runInstancing (scene : SceneNode) (meshUuids : List String)
    (instancedUuid clonedGeoUuid : String) : Option SceneNode × SceneNode :=
  let r := convertToInstanced scene meshUuids instancedUuid clonedGeoUuid
  (r.1, applyOps scene r.2)

end InstancingEngine

/-! ## MergeEngine (src/core/actions/MergeEngine.ts) -/

namespace MergeEngine

/-- Count of the attribute named `n`, 0 when absent. -/
def countOf (n : String) (g : Geometry) : Nat :=
  ((g.attributes.lookup n).map GeomAttr.count).getD 0

/-- The compatibility `BufferGeometryUtils.mergeGeometries` enforces
against the first geometry: same index-buffer presence, same set of
attribute names, matching `itemSize` per attribute (`normalized` flags
are not modelled). -/
def compatibleWith (g0 g : Geometry) : Bool :=
  (g.index.isSome == g0.index.isSome) &&
  (g.attributes.length == g0.attributes.length) &&
  g.attributes.all (fun na =>
    match g0.attributes.lookup na.1 with
    | some a0 => na.2.itemSize == a0.itemSize
    | none => false)

/-- `BufferGeometryUtils.mergeGeometries(geometries, false)`: null on any
layout incompatibility, otherwise one geometry whose per-attribute counts
are the sums of the inputs' counts (index entries are concatenated with
per-geometry offsets, so the merged index length is the sum of the input
index lengths).  The merged bounding box is not modelled: the merged
geometry only ever sits inside a provenance-tagged node, which the
analyzer skips. -/
def mergeGeometries (gs : List Geometry) (newUuid : String) : Option Geometry :=
  match gs with
  | [] => none
  | g0 :: rest =>
    if (g0 :: rest).all (fun g => compatibleWith g0 g) then
      some { uuid := newUuid
             attributes := g0.attributes.map (fun na =>
               (na.1, ⟨na.2.itemSize,
                 ((g0 :: rest).map (fun g => countOf na.1 g)).sum⟩))
             index :=
               if g0.index.isSome then
                 some (((g0 :: rest).map (fun g => g.index.getD 0)).sum)
               else none
             bboxSize := (0, 0, 0) }
    else none

/-- `MergeEngine.mergeMeshes(scene, meshUuids)`.

Control flow of the source, in order: fewer than 2 supplied uuids → null;
resolve via traversal; zero resolved → null; shared material := first
resolved mesh's material; target parent := first resolved mesh's parent,
falling back to the scene root; per mesh clone the geometry and bake the
refreshed world matrix into the clone; merge the baked clones (null on
incompatibility, before any scene mutation); build the merged mesh with
`applyMatrix4(parent.matrixWorld.invert())` on an identity transform
(local matrix = the inverse), tag it, attach it, then remove the
originals.  The clones' fresh uuids are never observed, so they are
derived from the source uuid; `mergedGeoUuid`/`mergedMeshUuid` stand for
the fresh uuids of the merged geometry and mesh. -/
def mergeMeshes (scene : SceneNode) (meshUuids : List String)
    (mergedGeoUuid mergedMeshUuid : String) :
    Option SceneNode × List SceneOp :=
  if meshUuids.length < 2 then (none, [])
  else
    match collectMeshes scene meshUuids with
    | [] => (none, [])
    | m0 :: rest =>
      let ms := m0 :: rest
      let sharedMaterial := m0.mat
      let pInfo := m0.parent.getD (rootUuid scene, 1 * (SceneNode.core scene).localMatrix)
      let geometries := ms.map (fun h =>
        (h.geom.cloneWith (h.geom.uuid ++ "-clone")).bake h.world)
      match mergeGeometries geometries mergedGeoUuid with
      | none => (none, [])
      | some mergedGeometry =>
        let mergedMesh : SceneNode := .node
          { uuid := mergedMeshUuid
            localMatrix := inv4 pInfo.2
            tag := some ⟨"merge", some meshUuids.length⟩
            kind := .mesh mergedGeometry sharedMaterial false false }
          .nil
        (some mergedMesh,
          .attach pInfo.1 mergedMesh :: ms.map (fun h => .detach h.core.uuid))

/-- The transform together with its effect on the scene graph. -/
def runMerge (scene : SceneNode) (meshUuids : List String)
    (mergedGeoUuid mergedMeshUuid : String) : Option SceneNode × SceneNode :=
  let r := mergeMeshes scene meshUuids mergedGeoUuid mergedMeshUuid
  (r.1, applyOps scene r.2)

end MergeEngine

/-! ## LODEngine (src/core/actions/LODEngine.ts) -/

namespace LODEngine

/-- `LODEngine.generateLOD(scene, meshUuid)`.

Control flow of the source, in order: resolve via traversal (the last
matching mesh wins, since every match overwrites `targetMesh`); not found
→ null; no parent → null; build a `THREE.LOD` container copying the
target's local placement and tagged with `{lod}`; level 0 = a clone of
the target normalized to an identity local transform, level 1 = a clone
of level 0 at distance 15, level 2 = another clone at distance 40
(`addLevel` inserts sorted by distance, so the children stay in that
order); attach the container to the parent, then remove the target.
`lodUuid` and the renamings `f1 f2 f3` stand for the fresh uuids of the
container and of the three cloned subtrees. -/
def generateLOD (scene : SceneNode) (meshUuid : String)
    (lodUuid : String) (f1 f2 f3 : String → String) :
    Option SceneNode × List SceneOp :=
  match (collectMeshes scene [meshUuid]).getLast? with
  | none => (none, [])
  | some target =>
    match target.parent with
    | none => (none, [])
    | some (pU, _) =>
      let highDetail := setIdentityLocal (cloneTree f1 target.tree)
      let medDetail := cloneTree f2 highDetail
      let lowDetail := cloneTree f3 highDetail
      let lod : SceneNode := .node
        { uuid := lodUuid
          localMatrix := target.core.localMatrix
          tag := some ⟨"lod", none⟩
          kind := .lodContainer [0, 15, 40] }
        (.cons highDetail (.cons medDetail (.cons lowDetail .nil)))
      (some lod, [.attach pU lod, .detach target.core.uuid])

/-- The transform together with its effect on the scene graph. -/
def runLOD (scene : SceneNode) (meshUuid : String)
    (lodUuid : String) (f1 f2 f3 : String → String) :
    Option SceneNode × SceneNode :=
  let r := generateLOD scene meshUuid lodUuid f1 f2 f3
  (r.1, applyOps scene r.2)

end LODEngine

/-! ## SceneAnalyzer (src/core/analysis/SceneAnalyzer.ts) -/

structure GeomEntry where
  count : Nat
  vertexCount : Nat
  affectedUuids : List String
  deriving DecidableEq

structure MatEntry where
  count : Nat
  affectedUuids : List String
  hasTextures : Bool
  deriving DecidableEq

structure TexEntry where
  uuid : String
  width : Nat
  height : Nat
  affectedUuids : List String
  deriving DecidableEq

structure MeshDetail where
  uuid : String
  geometryUuid : String
  materialUuid : String
  volume : ℚ
  vertexCount : Nat
  triangleCount : ℚ
  isStatic : Bool
  textureMaxRes : Nat
  deriving DecidableEq

/-- `RawSceneData`.  The two `Map`s and the texture map are modelled as
insertion-ordered association lists, which is exactly the iteration order
a JS `Map` guarantees. -/
structure RawSceneData where
  meshCount : Nat
  geometries : List (String × GeomEntry)
  materials : List (String × MatEntry)
  textures : List TexEntry
  meshDetails : List MeshDetail
  deriving DecidableEq

/-- `map.set(k, v)` on an insertion-ordered association list: replace in
place when the key is present, append otherwise. -/
def setKey {α : Type} (k : String) (v : α) :
    List (String × α) → List (String × α)
  | [] => [(k, v)]
  | (k', v') :: t => if k' = k then (k, v) :: t else (k', v') :: setKey k v t

/-- The texture-map update for one referenced texture: first reference
creates the entry, later references push the referencing mesh's uuid. -/
def addTexUse (meshUuid : String) (tex : Texture) :
    List TexEntry → List TexEntry
  | [] => [⟨tex.uuid, tex.width, tex.height, [meshUuid]⟩]
  | e :: es =>
    if e.uuid = tex.uuid then
      { e with affectedUuids := e.affectedUuids ++ [meshUuid] } :: es
    else e :: addTexUse meshUuid tex es

/-- `maxTexRes = Math.max(maxTexRes, map.image.width, map.image.height)`
folded over the six map slots. -/
def maxTexRes (m : Material) : Nat :=
  m.mapSlots.foldl
    (fun acc o => match o with
      | some t => max acc (max t.width t.height)
      | none => acc) 0

/-- `size.x * size.y * size.z || 0.000001` from the computed bounding
box. -/
def volumeOf (g : Geometry) : ℚ :=
  let v := g.bboxSize.1 * g.bboxSize.2.1 * g.bboxSize.2.2
  if v = 0 then 1 / 1000000 else v

/-- The data the analyzer reads off one visited, untagged mesh node. -/
structure MeshRec where
  uuid : String
  geom : Geometry
  mat : Material
  skinned : Bool
  hasMorphs : Bool
  deriving DecidableEq

/-- The analyzer's per-node guard: skip provenance-tagged nodes, then act
only on `instanceof THREE.Mesh`. -/
def activeMesh (c : NodeCore) : Option MeshRec :=
  if c.tag.isSome then none
  else
    match c.kind.meshParts with
    | some (g, m, sk, mo) => some ⟨c.uuid, g, m, sk, mo⟩
    | none => none

/-- The `meshDetails` entry pushed for one mesh.  `triangleCount` is
`(index ? index.count : vertexCount) / 3` as a JS number (exact rational
here); `isStatic` is `!skeleton && (no morph-target influences)`. -/
def detailOf (r : MeshRec) : MeshDetail :=
  { uuid := r.uuid
    geometryUuid := r.geom.uuid
    materialUuid := r.mat.uuid
    volume := volumeOf r.geom
    vertexCount := r.geom.positionCount
    triangleCount := ((r.geom.index.getD r.geom.positionCount : Nat) : ℚ) / 3
    isStatic := !r.skinned && !r.hasMorphs
    textureMaxRes := maxTexRes r.mat }

/-- The analyzer's work for one untagged mesh node: bump `meshCount`,
upsert the geometry entry (count incremented, vertex count overwritten,
uuid appended), upsert the material entry, record texture usages, and
push the mesh detail. -/
def visitMesh (d : RawSceneData) (r : MeshRec) : RawSceneData :=
  let ge0 := (d.geometries.lookup r.geom.uuid).getD ⟨0, 0, []⟩
  let ge := { ge0 with
    count := ge0.count + 1
    vertexCount := r.geom.positionCount
    affectedUuids := ge0.affectedUuids ++ [r.uuid] }
  let me0 := (d.materials.lookup r.mat.uuid).getD ⟨0, [], false⟩
  let me := { me0 with
    count := me0.count + 1
    affectedUuids := me0.affectedUuids ++ [r.uuid]
    hasTextures := me0.hasTextures || r.mat.mapSlots.any Option.isSome }
  { meshCount := d.meshCount + 1
    geometries := setKey r.geom.uuid ge d.geometries
    materials := setKey r.mat.uuid me d.materials
    textures := r.mat.mapSlots.foldl
      (fun ts o => match o with
        | some tex => addTexUse r.uuid tex ts
        | none => ts) d.textures
    meshDetails := d.meshDetails ++ [detailOf r] }

def visitNode (d : RawSceneData) (c : NodeCore) : RawSceneData :=
  match activeMesh c with
  | some r => visitMesh d r
  | none => d

def emptyData : RawSceneData := ⟨0, [], [], [], []⟩

namespace SceneAnalyzer

/-- `SceneAnalyzer.analyze(scene)`: fold the per-node visitor over the
traversal. -/
def analyze (scene : SceneNode) : RawSceneData :=
  (traverseCores scene).foldl visitNode emptyData

end SceneAnalyzer

/-! ## OptimizationEngine (the issue detector / scorer) -/

/-- A `StructuralIssue`.  The display strings (`title`, `description`),
the UI `state` field and the `optimizationMetadata` payload are not
modelled; `count` and `affectedUuids` are `none` where the source leaves
the field undefined. -/
structure StructuralIssue where
  id : String
  type : String
  severity : String
  count : Option Nat
  affectedUuids : Option (List String)
  canAutoOptimize : Bool
  deriving DecidableEq

/-- JS numbers as far as the stats block needs them: finite values exactly,
plus the non-finite results of dividing by zero. -/
inductive JSNum where
  | num (q : ℚ)
  | posInf
  | negInf
  | nan
  deriving DecidableEq

/-- JS division for the stats block: `0/0 = NaN`, `±x/0 = ±Infinity`. -/
def jsDiv (a b : ℚ) : JSNum :=
  if b = 0 then (if a = 0 then .nan else if 0 < a then .posInf else .negInf)
  else .num (a / b)

structure SceneStats where
  instancingPotential : Nat
  mergePotential : Nat
  meshCount : Nat
  drawCalls : Nat
  materialReuse : JSNum
  avgVertexDensity : JSNum
  textureVramUsage : Nat
  geometryVramUsage : Nat
  deriving DecidableEq

/-- `SceneAnalysisReport` (the ISO timestamp string is not modelled; the
determinism claim explicitly sets it aside).  `materialReuse` is the
source's material-reuse stat `uniqueMats / meshCount`. -/
structure SceneAnalysisReport where
  score : ℤ
  status : String
  issues : List StructuralIssue
  sceneVersion : Nat
  stats : SceneStats
  deriving DecidableEq

namespace OptimizationEngine

structure InstGroup where
  geometryUuid : String
  materialUuid : String
  affectedUuids : List String
  deriving DecidableEq

/-- The grouping key `` `${mesh.geometryUuid}_${mesh.materialUuid}` ``. -/
def instKey (d : MeshDetail) : String := d.geometryUuid ++ "_" ++ d.materialUuid

def instancingStep (gs : List (String × InstGroup)) (d : MeshDetail) :
    List (String × InstGroup) :=
  if d.isStatic then
    let g := (gs.lookup (instKey d)).getD ⟨d.geometryUuid, d.materialUuid, []⟩
    setKey (instKey d) { g with affectedUuids := g.affectedUuids ++ [d.uuid] } gs
  else gs

/-- Rule 1 grouping: static meshes by `(geometryUuid, materialUuid)`. -/
def instancingGroups (ds : List MeshDetail) : List (String × InstGroup) :=
  ds.foldl instancingStep []

def instGroupIssue (g : InstGroup) : Option StructuralIssue :=
  if 1 < g.affectedUuids.length then
    some { id := "instancing-" ++ g.geometryUuid ++ "-" ++ g.materialUuid
           type := "duplicate_geometry"
           severity := "high"
           count := some g.affectedUuids.length
           affectedUuids := some g.affectedUuids
           canAutoOptimize := true }
  else none

def instancingIssues (gs : List (String × InstGroup)) : List StructuralIssue :=
  gs.filterMap (fun kg => instGroupIssue kg.2)

/-- `score -= Math.min(10, count * 2)` for each group with `count > 1`. -/
def instGroupDeduction (g : InstGroup) : ℤ :=
  if 1 < g.affectedUuids.length then min 10 (2 * g.affectedUuids.length) else 0

def instancingDeduction (gs : List (String × InstGroup)) : ℤ :=
  (gs.map (fun kg => instGroupDeduction kg.2)).sum

def materialStep (gs : List (String × List String)) (d : MeshDetail) :
    List (String × List String) :=
  if d.isStatic then
    setKey d.materialUuid ((gs.lookup d.materialUuid).getD [] ++ [d.uuid]) gs
  else gs

/-- Rule 2 grouping: static meshes by material uuid. -/
def materialGroups (ds : List MeshDetail) : List (String × List String) :=
  ds.foldl materialStep []

def mergeGroupIssue (matUuid : String) (us : List String) :
    Option StructuralIssue :=
  if 5 < us.length then
    some { id := "static-merge-" ++ matUuid
           type := "static_merge"
           severity := "medium"
           count := some us.length
           affectedUuids := some us
           canAutoOptimize := true }
  else none

def mergeIssues (gs : List (String × List String)) : List StructuralIssue :=
  gs.filterMap (fun kg => mergeGroupIssue kg.1 kg.2)

/-- Rule 3: `uniqueMats > 10 && uniqueMats > meshCount * 0.5`. -/
def fragCond (data : RawSceneData) : Prop :=
  10 < data.materials.length ∧
    (data.meshCount : ℚ) * (1 / 2) < (data.materials.length : ℚ)

instance (data : RawSceneData) : Decidable (fragCond data) := by
  unfold fragCond; infer_instance

def fragIssues (data : RawSceneData) : List StructuralIssue :=
  if fragCond data then
    [{ id := "mat-fragmentation"
       type := "material_fragmentation"
       severity := "medium"
       count := some data.materials.length
       affectedUuids := none
       canAutoOptimize := false }]
  else []

def fragDeduction (data : RawSceneData) : ℤ :=
  if fragCond data then 10 else 0

def texArea (t : TexEntry) : Nat := t.width * t.height

/-- The meshes a high-resolution texture qualifies for rule 4:
`tex.affectedUuids.includes(mesh.uuid) && mesh.volume < 0.1 &&
textureArea >= 4096*4096`. -/
def overkillUuids (ds : List MeshDetail) (t : TexEntry) : List String :=
  (ds.filter (fun m =>
    decide (m.uuid ∈ t.affectedUuids) &&
    decide (m.volume < (1 : ℚ) / 10) &&
    decide (4096 * 4096 ≤ texArea t))).map MeshDetail.uuid

def texIssue (ds : List MeshDetail) (t : TexEntry) : Option StructuralIssue :=
  if 2048 * 2048 < texArea t then
    if overkillUuids ds t ≠ [] then
      some { id := "tex-overkill-" ++ t.uuid
             type := "texture_overkill"
             severity := "medium"
             count := none
             affectedUuids := some (overkillUuids ds t)
             canAutoOptimize := false }
    else none
  else none

def texIssues (data : RawSceneData) : List StructuralIssue :=
  data.textures.filterMap (texIssue data.meshDetails)

/-- `score -= 5` for each texture that produced an overkill issue. -/
def texDeduction (data : RawSceneData) : ℤ :=
  5 * (texIssues data).length

/-- Rule 5 per-mesh test: `vertexCount / volume > 50000 && vertexCount >
5000`.  (Analyzer-produced details always have a nonzero volume thanks to
the epsilon clamp, so the rational division is the JS one.) -/
def densityTrigger (m : MeshDetail) : Bool :=
  decide (50000 < (m.vertexCount : ℚ) / m.volume) && decide (5000 < m.vertexCount)

def highDensityMeshes (ds : List MeshDetail) : List String :=
  (ds.filter densityTrigger).map MeshDetail.uuid

def densityIssues (ds : List MeshDetail) : List StructuralIssue :=
  if highDensityMeshes ds ≠ [] then
    [{ id := "high-density"
       type := "high_density"
       severity := "medium"
       count := none
       affectedUuids := some (highDensityMeshes ds)
       canAutoOptimize := false }]
  else []

def densityDeduction (ds : List MeshDetail) : ℤ :=
  if highDensityMeshes ds ≠ [] then 10 else 0

/-- Rule 6: static meshes with `triangleCount > 50000`. -/
def lodCandidates (ds : List MeshDetail) : List MeshDetail :=
  ds.filter (fun m => decide ((50000 : ℚ) < m.triangleCount) && m.isStatic)

def lodIssues (ds : List MeshDetail) : List StructuralIssue :=
  if lodCandidates ds ≠ [] then
    [{ id := "lod-proposal"
       type := "lod_needed"
       severity := "low"
       count := none
       affectedUuids := some ((lodCandidates ds).map MeshDetail.uuid)
       canAutoOptimize := true }]
  else []

/-- `OptimizationEngine.evaluate(data)`.  The running `score -= …` updates
commute, so the raw score is 100 minus the four deductions; `status` is
computed from the raw score before the `Math.max(0, score)` clamp, issues
are pushed in rule order. -/
def evaluate (data : RawSceneData) : SceneAnalysisReport :=
  let igs := instancingGroups data.meshDetails
  let rawScore : ℤ := 100 - instancingDeduction igs - fragDeduction data
    - texDeduction data - densityDeduction data.meshDetails
  let issues := instancingIssues igs ++ mergeIssues (materialGroups data.meshDetails)
    ++ fragIssues data ++ texIssues data ++ densityIssues data.meshDetails
    ++ lodIssues data.meshDetails
  { score := max 0 rawScore
    status := if 85 < rawScore then "optimized"
      else if 60 < rawScore then "improvable" else "heavy"
    issues := issues
    sceneVersion := 0
    stats :=
      { instancingPotential :=
          (issues.filter (fun i => i.type == "duplicate_geometry")).length
        mergePotential :=
          (issues.filter (fun i => i.type == "static_merge")).length
        meshCount := data.meshCount
        drawCalls := data.meshCount
        materialReuse := jsDiv (data.materials.length : ℚ) (data.meshCount : ℚ)
        avgVertexDensity := jsDiv
          ((data.meshDetails.map (fun m => (m.vertexCount : ℚ) / m.volume)).sum)
          (data.meshCount : ℚ)
        textureVramUsage := (data.textures.map (fun t => t.width * t.height * 4)).sum
        geometryVramUsage := (data.geometries.map (fun kg => kg.2.vertexCount * 12)).sum } }

end OptimizationEngine

/-- One analysis pass: `SceneAnalyzer.analyze` then
`OptimizationEngine.evaluate` (as wired in `useSceneIntelligence`). -/
def analysisPass (scene : SceneNode) : SceneAnalysisReport :=
  OptimizationEngine.evaluate (SceneAnalyzer.analyze scene)

/-! ## Derived notions used by the statements -/

def sceneUuids (t : SceneNode) : List String := (traverseCores t).map NodeCore.uuid

/-- The mesh facts the analyzer extracts: the traversal, restricted to
untagged mesh nodes. -/
def extractedMeshes (t : SceneNode) : List MeshRec :=
  (traverseCores t).filterMap activeMesh

def extractedOf (l : List NodeCore) : List MeshRec := l.filterMap activeMesh

def SceneForest.toList : SceneForest → List SceneNode
  | .nil => []
  | .cons t ts => t :: ts.toList

mutual
def subtreeOf (u : String) : SceneNode → Option SceneNode
  | .node c cs => if c.uuid = u then some (.node c cs) else subtreeOfF u cs
def subtreeOfF (u : String) : SceneForest → Option SceneNode
  | .nil => none
  | .cons t ts =>
    match subtreeOf u t with
    | some r => some r
    | none => subtreeOfF u ts
end

mutual
/-- World matrices of every node, as the ancestor-chain product that
`updateWorldMatrix(true, false)` maintains. -/
def worldsGo (w : Mat4) : SceneNode → List (String × Mat4)
  | .node c cs => (c.uuid, w * c.localMatrix) :: worldsGoF (w * c.localMatrix) cs
def worldsGoF (w : Mat4) : SceneForest → List (String × Mat4)
  | .nil => []
  | .cons t ts => worldsGo w t ++ worldsGoF w ts
end

/-- The world matrix of the (first) node with uuid `u`. -/
def worldMatrixOf (t : SceneNode) (u : String) : Mat4 :=
  ((worldsGo 1 t).lookup u).getD 1

/-- Slot count of an instanced container node. -/
def instSlotCount (t : SceneNode) : Nat :=
  match t.core.kind with
  | .instanced _ _ c _ => c
  | _ => 0

/-- Per-instance matrices stored in an instanced container node. -/
def instMatrices (t : SceneNode) : List Mat4 :=
  match t.core.kind with
  | .instanced _ _ _ ms => ms
  | _ => []

def meshGeometry (t : SceneNode) : Option Geometry :=
  (NodeKind.meshParts t.core.kind).map (fun x => x.1)

/-- `u` resolves: some traversed node is a mesh with that uuid. -/
def resolvesToMesh (t : SceneNode) (u : String) : Prop :=
  ∃ c ∈ traverseCores t, (NodeKind.meshParts c.kind).isSome ∧ c.uuid = u

instance (t : SceneNode) (u : String) : Decidable (resolvesToMesh t u) := by
  unfold resolvesToMesh; infer_instance

def issueAffected (i : StructuralIssue) : List String :=
  i.affectedUuids.getD []

/-- All uuids recorded anywhere in the extracted data. -/
def dataUuids (d : RawSceneData) : List String :=
  d.meshDetails.map MeshDetail.uuid
    ++ d.geometries.flatMap (fun kg => kg.2.affectedUuids)
    ++ d.materials.flatMap (fun kg => kg.2.affectedUuids)
    ++ d.textures.flatMap TexEntry.affectedUuids

/-- One fresh static leaf mesh of a duplicate-geometry group. -/
def groupMeshNode (u : String) (g : Geometry) (m : Material) : SceneNode :=
  .node ⟨u, 1, none, .mesh g m false false⟩ .nil

/-- Add a duplicate-geometry group — `us.length` static leaf meshes all
sharing geometry `g` and material `m` — under the scene root. -/
def addGroup (t : SceneNode) (us : List String) (g : Geometry) (m : Material) :
    SceneNode :=
  match t with
  | .node c cs =>
    .node c (cs.append (SceneForest.ofList (us.map (fun u => groupMeshNode u g m))))

/-- Whether the analyzer's visit of node `c` records a use of the
geometry with uuid `gU`: the node must pass the tag/mesh guard and its
geometry must be the one in question. -/
def usesGeom (gU : String) (c : NodeCore) : Bool :=
  match activeMesh c with
  | some r => r.geom.uuid == gU
  | none => false

/-- The `count` field of the geometry-catalog entry for `gU` (0 when the
geometry was never seen). -/
def geomCountOf (d : RawSceneData) (gU : String) : Nat :=
  match d.geometries.lookup gU with
  | some e => e.count
  | none => 0

/-! ## Concrete scenes for witnesses and counterexamples -/

def exG : Geometry :=
  ⟨"geo1", [("position", ⟨3, 24⟩), ("normal", ⟨3, 24⟩)], some 36, (1, 1, 1)⟩

def exM : Material := ⟨"mat1", none, none, none, none, none, none⟩

def exMesh (u : String) : SceneNode :=
  .node ⟨u, 1, none, .mesh exG exM false false⟩ .nil

/-- Two identical static meshes under the root. -/
def exScene2 : SceneNode :=
  .node ⟨"root", 1, none, .group⟩ (.cons (exMesh "a") (.cons (exMesh "b") .nil))

/-- One static mesh under the root. -/
def exScene1 : SceneNode :=
  .node ⟨"root", 1, none, .group⟩ (.cons (exMesh "a") .nil)

/-- A scene without any mesh node. -/
def exSceneEmpty : SceneNode :=
  .node ⟨"root", 1, none, .group⟩ (.cons (.node ⟨"grp", 1, none, .group⟩ .nil) .nil)

/-- A degenerate parent: zero scale on the y axis, so its world matrix is
singular. -/
def singularLocal : Mat4 := Matrix.diagonal ![2, 0, 1, 1]

/-- Two identical meshes under a parent whose world matrix is singular. -/
def exSceneSingular : SceneNode :=
  .node ⟨"root", 1, none, .group⟩
    (.cons (.node ⟨"par", singularLocal, none, .group⟩
      (.cons (exMesh "a") (.cons (exMesh "b") .nil))) .nil)

/-- A scene containing one ordinary mesh and one provenance-tagged mesh. -/
def exSceneTagged : SceneNode :=
  .node ⟨"root", 1, none, .group⟩
    (.cons (exMesh "a")
      (.cons (.node ⟨"opt", 1, some ⟨"instancing", some 3⟩, .mesh exG exM false false⟩ .nil)
        .nil))

/-! # Theorems -/

/-! ## Matrix facts -/

theorem inv4_eq_zero_of_det_zero (A : Mat4) (h : A.det = 0) : inv4 A = 0 := by
  rw [inv4, if_pos h]

theorem mul_inv4_self (A : Mat4) (h : A.det ≠ 0) : A * inv4 A = 1 := by
  rw [inv4, if_neg h, Matrix.mul_smul, Matrix.mul_adjugate, smul_smul,
    inv_mul_cancel₀ h, one_smul]

theorem matNear_refl (A : Mat4) (eps : ℚ) (h : 0 ≤ eps) : matNear A A eps := by
  intro i j; simpa using h

theorem applyOps_nil (t : SceneNode) : applyOps t [] = t := rfl

/-! ## Analyzer fold facts -/

theorem activeMesh_none_of_no_mesh (c : NodeCore)
    (h : c.kind.meshParts = none) : activeMesh c = none := by
  unfold activeMesh
  split
  · rfl
  · rw [h]

theorem visitNode_no_mesh (d : RawSceneData) (c : NodeCore)
    (h : c.kind.meshParts = none) : visitNode d c = d := by
  unfold visitNode
  rw [activeMesh_none_of_no_mesh c h]

theorem foldl_visitNode_no_mesh (l : List NodeCore) (d : RawSceneData)
    (h : ∀ c ∈ l, c.kind.meshParts = none) : l.foldl visitNode d = d := by
  induction l generalizing d with
  | nil => rfl
  | cons c t ih =>
    rw [List.foldl_cons, visitNode_no_mesh d c (h c (by simp))]
    exact ih d (fun c' hc' => h c' (List.mem_cons_of_mem _ hc'))

/-- The only scene data with no mesh facts is the initial one. -/
theorem analyze_no_mesh (s : SceneNode)
    (h : ∀ c ∈ traverseCores s, c.kind.meshParts = none) :
    SceneAnalyzer.analyze s = emptyData :=
  foldl_visitNode_no_mesh _ _ h

theorem meshCount_le_visitNode (d : RawSceneData) (c : NodeCore) :
    d.meshCount ≤ (visitNode d c).meshCount := by
  unfold visitNode
  cases activeMesh c with
  | none => exact le_refl _
  | some r => exact Nat.le_succ _

theorem visitNode_eq_of_meshCount (d : RawSceneData) (c : NodeCore)
    (h : (visitNode d c).meshCount = d.meshCount) : visitNode d c = d := by
  unfold visitNode at h ⊢
  cases hr : activeMesh c with
  | none => rfl
  | some r =>
    rw [hr] at h
    exact absurd h (Nat.succ_ne_self _)

theorem meshCount_le_foldl (l : List NodeCore) (d : RawSceneData) :
    d.meshCount ≤ (l.foldl visitNode d).meshCount := by
  induction l generalizing d with
  | nil => exact le_refl _
  | cons c t ih =>
    exact le_trans (meshCount_le_visitNode d c) (ih (visitNode d c))

theorem foldl_visitNode_eq_of_meshCount (l : List NodeCore) (d : RawSceneData)
    (h : (l.foldl visitNode d).meshCount = d.meshCount) : l.foldl visitNode d = d := by
  induction l generalizing d with
  | nil => rfl
  | cons c t ih =>
    rw [List.foldl_cons] at h ⊢
    have h1 : (visitNode d c).meshCount = d.meshCount :=
      le_antisymm (h ▸ meshCount_le_foldl t (visitNode d c)) (meshCount_le_visitNode d c)
    rw [visitNode_eq_of_meshCount d c h1] at h ⊢
    exact ih d h

/-- A scene whose analysis sees no mesh produces the initial data. -/
theorem analyze_eq_empty_of_meshCount_zero (s : SceneNode)
    (h : (SceneAnalyzer.analyze s).meshCount = 0) :
    SceneAnalyzer.analyze s = emptyData :=
  foldl_visitNode_eq_of_meshCount _ _ h

/-! ## Claim C6 -/

/-- C6: running the analysis pipeline (`SceneAnalyzer.analyze` followed by
`OptimizationEngine.evaluate`) twice on an unchanged scene yields
identical issue ids, identical affected-uuid lists, and identical scores.
In the embedding both passes are applications of one pure function — the
source derives issue ids deterministically from grouping keys and has no
nondeterminism apart from the report timestamp, which the claim sets
aside (and which the model therefore omits). -/
theorem c6_analysis_deterministic (s : SceneNode) :
    (analysisPass s).issues.map StructuralIssue.id =
        (analysisPass s).issues.map StructuralIssue.id ∧
      (analysisPass s).issues.map issueAffected =
        (analysisPass s).issues.map issueAffected ∧
      (analysisPass s).score = (analysisPass s).score :=
  ⟨rfl, rfl, rfl⟩

/-! ## Claim C8 -/

/-- C8: for a scene with no mesh node anywhere in the root's subtree, one
analysis pass reports score 100, status "optimized", and no issues. -/
theorem c8_empty_scene_report (s : SceneNode)
    (h : ∀ c ∈ traverseCores s, c.kind.meshParts = none) :
    (analysisPass s).score = 100 ∧ (analysisPass s).status = "optimized" ∧
      (analysisPass s).issues = [] := by
  unfold analysisPass
  rw [analyze_no_mesh s h]
  refine ⟨?_, ?_, ?_⟩ <;> with_unfolding_all decide

theorem c8_empty_scene_report_witness :
    (analysisPass exSceneEmpty).score = 100 ∧
      (analysisPass exSceneEmpty).status = "optimized" ∧
      (analysisPass exSceneEmpty).issues = [] :=
  c8_empty_scene_report exSceneEmpty (by decide)

/-! ## Claim C10 -/

/-- C10: when the evaluator runs on analyzer data with `meshCount = 0`,
the stats fields `materialReuseRatio` (modelled as `materialReuse`) and
`avgVertexDensity` are both NaN — `uniqueMats / meshCount` and the
density sum divided by `meshCount` are `0 / 0` — even though score,
status and issues are perfectly well defined for that input. -/
theorem c10_meshCount_zero_gives_nan (s : SceneNode)
    (h : (SceneAnalyzer.analyze s).meshCount = 0) :
    (analysisPass s).stats.materialReuse = JSNum.nan ∧
      (analysisPass s).stats.avgVertexDensity = JSNum.nan ∧
      (analysisPass s).score = 100 ∧ (analysisPass s).status = "optimized" ∧
      (analysisPass s).issues = [] := by
  unfold analysisPass
  rw [analyze_eq_empty_of_meshCount_zero s h]
  refine ⟨?_, ?_, ?_, ?_, ?_⟩ <;> with_unfolding_all decide

theorem c10_meshCount_zero_gives_nan_witness :
    (analysisPass exSceneEmpty).stats.materialReuse = JSNum.nan ∧
      (analysisPass exSceneEmpty).stats.avgVertexDensity = JSNum.nan ∧
      (analysisPass exSceneEmpty).score = 100 ∧
      (analysisPass exSceneEmpty).status = "optimized" ∧
      (analysisPass exSceneEmpty).issues = [] :=
  c10_meshCount_zero_gives_nan exSceneEmpty (by decide)

/-! ## Resolution facts -/

theorem collectGo_uuid_mem (us : List String) :
    ∀ (t : SceneNode) (p : Option (String × Mat4)) (w : Mat4),
      ∀ hit ∈ collectGo us p w t, hit.core.uuid ∈ us := by
  intro t
  induction t using SceneNode.rec
    (motive_2 := fun cs => ∀ p w, ∀ hit ∈ collectGoF us p w cs, hit.core.uuid ∈ us) with
  | node c cs ih =>
    intro p w hit hmem
    unfold collectGo at hmem
    rcases List.mem_append.1 hmem with hl | hr
    · revert hl
      split
      · split
        · intro hl
          rw [List.mem_singleton.1 hl]
          assumption
        · intro hl; exact absurd hl (List.not_mem_nil _)
      · intro hl; exact absurd hl (List.not_mem_nil _)
    · exact ih _ _ hit hr
  | nil =>
    rename_i p w hit hmem
    simp [collectGoF] at hmem
  | cons t ts ih1 ih2 =>
    rename_i p w hit hmem
    unfold collectGoF at hmem
    rcases List.mem_append.1 hmem with hl | hr
    · exact ih1 _ _ hit hl
    · exact ih2 _ _ hit hr

theorem collectMeshes_uuid_mem (s : SceneNode) (us : List String) :
    ∀ hit ∈ collectMeshes s us, hit.core.uuid ∈ us :=
  collectGo_uuid_mem us s none 1

/-! ## Engine control-flow characterizations -/

theorem convertToInstanced_success (s : SceneNode) (us : List String)
    (a b : String) (m0 : MeshHit) (rest : List MeshHit) (pU : String) (pW : Mat4)
    (hlen : 2 ≤ us.length) (hres : collectMeshes s us = m0 :: rest)
    (hp : m0.parent = some (pU, pW)) :
    InstancingEngine.convertToInstanced s us a b =
      (some (SceneNode.node
        { uuid := a
          localMatrix := 1
          tag := some ⟨"instancing", some (m0 :: rest).length⟩
          kind := .instanced (m0.geom.cloneWith b) m0.mat (m0 :: rest).length
            ((m0 :: rest).map (fun h => inv4 pW * h.world)) } .nil),
       .attach pU (SceneNode.node
        { uuid := a
          localMatrix := 1
          tag := some ⟨"instancing", some (m0 :: rest).length⟩
          kind := .instanced (m0.geom.cloneWith b) m0.mat (m0 :: rest).length
            ((m0 :: rest).map (fun h => inv4 pW * h.world)) } .nil)
         :: (m0 :: rest).map (fun h => .detach h.core.uuid)) := by
  simp only [InstancingEngine.convertToInstanced, if_neg (show ¬ us.length < 2 by omega),
    hres, hp]

theorem convertToInstanced_shape (s : SceneNode) (us : List String) (a b : String) :
    InstancingEngine.convertToInstanced s us a b = (none, []) ∨
      ∃ r pU ds, InstancingEngine.convertToInstanced s us a b = (some r, .attach pU r :: ds) ∧
        ∀ o ∈ ds, ∃ du ∈ us, o = SceneOp.detach du := by
  by_cases h1 : us.length < 2
  · left
    simp only [InstancingEngine.convertToInstanced, if_pos h1]
  · cases hres : collectMeshes s us with
    | nil =>
      left
      simp only [InstancingEngine.convertToInstanced, if_neg h1, hres]
    | cons m0 rest =>
      cases hp : m0.parent with
      | none =>
        left
        simp only [InstancingEngine.convertToInstanced, if_neg h1, hres, hp]
      | some pp =>
        right
        refine ⟨_, pp.1, _,
          convertToInstanced_success s us a b m0 rest pp.1 pp.2 (by omega) hres hp, ?_⟩
        intro o ho
        rcases List.mem_map.1 ho with ⟨hit, hhit, rfl⟩
        refine ⟨hit.core.uuid, collectMeshes_uuid_mem s us hit ?_, rfl⟩
        rw [hres]; exact hhit

theorem mergeMeshes_success (s : SceneNode) (us : List String)
    (gU mU : String) (m0 : MeshHit) (rest : List MeshHit) (mg : Geometry)
    (hlen : 2 ≤ us.length) (hres : collectMeshes s us = m0 :: rest)
    (hmerge : MergeEngine.mergeGeometries
      ((m0 :: rest).map (fun h => (h.geom.cloneWith (h.geom.uuid ++ "-clone")).bake h.world))
      gU = some mg) :
    MergeEngine.mergeMeshes s us gU mU =
      (some (SceneNode.node
        { uuid := mU
          localMatrix := inv4 (m0.parent.getD (rootUuid s, 1 * (SceneNode.core s).localMatrix)).2
          tag := some ⟨"merge", some us.length⟩
          kind := .mesh mg m0.mat false false } .nil),
       .attach (m0.parent.getD (rootUuid s, 1 * (SceneNode.core s).localMatrix)).1
         (SceneNode.node
          { uuid := mU
            localMatrix := inv4 (m0.parent.getD (rootUuid s, 1 * (SceneNode.core s).localMatrix)).2
            tag := some ⟨"merge", some us.length⟩
            kind := .mesh mg m0.mat false false } .nil)
         :: (m0 :: rest).map (fun h => .detach h.core.uuid)) := by
  simp only [MergeEngine.mergeMeshes, if_neg (show ¬ us.length < 2 by omega), hres, hmerge]

theorem mergeMeshes_shape (s : SceneNode) (us : List String) (gU mU : String) :
    MergeEngine.mergeMeshes s us gU mU = (none, []) ∨
      ∃ r pU ds, MergeEngine.mergeMeshes s us gU mU = (some r, .attach pU r :: ds) ∧
        ∀ o ∈ ds, ∃ du ∈ us, o = SceneOp.detach du := by
  by_cases h1 : us.length < 2
  · left
    simp only [MergeEngine.mergeMeshes, if_pos h1]
  · cases hres : collectMeshes s us with
    | nil =>
      left
      simp only [MergeEngine.mergeMeshes, if_neg h1, hres]
    | cons m0 rest =>
      cases hmerge : MergeEngine.mergeGeometries
          ((m0 :: rest).map (fun h =>
            (h.geom.cloneWith (h.geom.uuid ++ "-clone")).bake h.world)) gU with
      | none =>
        left
        simp only [MergeEngine.mergeMeshes, if_neg h1, hres, hmerge]
      | some mg =>
        right
        refine ⟨_, _, _, mergeMeshes_success s us gU mU m0 rest mg (by omega) hres hmerge, ?_⟩
        intro o ho
        rcases List.mem_map.1 ho with ⟨hit, hhit, rfl⟩
        refine ⟨hit.core.uuid, collectMeshes_uuid_mem s us hit ?_, rfl⟩
        rw [hres]; exact hhit

theorem generateLOD_success (s : SceneNode) (u lU : String)
    (f1 f2 f3 : String → String) (target : MeshHit) (pU : String) (pW : Mat4)
    (hres : (collectMeshes s [u]).getLast? = some target)
    (hp : target.parent = some (pU, pW)) :
    LODEngine.generateLOD s u lU f1 f2 f3 =
      (some (SceneNode.node
        { uuid := lU
          localMatrix := target.core.localMatrix
          tag := some ⟨"lod", none⟩
          kind := .lodContainer [0, 15, 40] }
        (.cons (setIdentityLocal (cloneTree f1 target.tree))
          (.cons (cloneTree f2 (setIdentityLocal (cloneTree f1 target.tree)))
            (.cons (cloneTree f3 (setIdentityLocal (cloneTree f1 target.tree))) .nil)))),
       [.attach pU (SceneNode.node
        { uuid := lU
          localMatrix := target.core.localMatrix
          tag := some ⟨"lod", none⟩
          kind := .lodContainer [0, 15, 40] }
        (.cons (setIdentityLocal (cloneTree f1 target.tree))
          (.cons (cloneTree f2 (setIdentityLocal (cloneTree f1 target.tree)))
            (.cons (cloneTree f3 (setIdentityLocal (cloneTree f1 target.tree))) .nil)))),
        .detach target.core.uuid]) := by
  simp only [LODEngine.generateLOD, hres, hp]

theorem generateLOD_shape (s : SceneNode) (u lU : String) (f1 f2 f3 : String → String) :
    LODEngine.generateLOD s u lU f1 f2 f3 = (none, []) ∨
      ∃ r pU, LODEngine.generateLOD s u lU f1 f2 f3 =
        (some r, [.attach pU r, .detach u]) := by
  cases hres : (collectMeshes s [u]).getLast? with
  | none =>
    left
    simp only [LODEngine.generateLOD, hres]
  | some target =>
    cases hp : target.parent with
    | none =>
      left
      simp only [LODEngine.generateLOD, hres, hp]
    | some pp =>
      right
      have hu : target.core.uuid = u := by
        have hmem : target ∈ collectMeshes s [u] := by
          rcases List.mem_getLast?_eq_getLast
            (show target ∈ (collectMeshes s [u]).getLast? from hres) with ⟨hne, heq⟩
          rw [heq]
          exact List.getLast_mem hne
        simpa using collectMeshes_uuid_mem s [u] target hmem
      have hs := generateLOD_success s u lU f1 f2 f3 target pp.1 pp.2 hres hp
      rw [hu] at hs
      exact ⟨_, pp.1, hs⟩

/-! ## Claim C4 -/

/-- C4: whenever any of the three transforms returns a falsy (null)
result, the scene graph is unchanged — the emitted mutation list is
empty, so no original node was detached and no replacement attached; and
on a successful run the first emitted mutation is attaching the
replacement, with every detachment of an original strictly after it. -/
theorem c4_failed_transforms_no_op (scene : SceneNode) (uuids : List String)
    (u iU gU mgU mmU lU : String) (f1 f2 f3 : String → String) :
    ((InstancingEngine.convertToInstanced scene uuids iU gU).1 = none →
        (InstancingEngine.runInstancing scene uuids iU gU).2 = scene) ∧
      ((MergeEngine.mergeMeshes scene uuids mgU mmU).1 = none →
        (MergeEngine.runMerge scene uuids mgU mmU).2 = scene) ∧
      ((LODEngine.generateLOD scene u lU f1 f2 f3).1 = none →
        (LODEngine.runLOD scene u lU f1 f2 f3).2 = scene) ∧
      (∀ r ops, InstancingEngine.convertToInstanced scene uuids iU gU = (some r, ops) →
        ∃ pU ds, ops = .attach pU r :: ds ∧
          ∀ o ∈ ds, ∃ du ∈ uuids, o = SceneOp.detach du) ∧
      (∀ r ops, MergeEngine.mergeMeshes scene uuids mgU mmU = (some r, ops) →
        ∃ pU ds, ops = .attach pU r :: ds ∧
          ∀ o ∈ ds, ∃ du ∈ uuids, o = SceneOp.detach du) ∧
      (∀ r ops, LODEngine.generateLOD scene u lU f1 f2 f3 = (some r, ops) →
        ∃ pU, ops = [.attach pU r, .detach u]) := by
  refine ⟨?_, ?_, ?_, ?_, ?_, ?_⟩
  · intro h
    rcases convertToInstanced_shape scene uuids iU gU with heq | ⟨r, pU, ds, heq, _⟩
    · show applyOps scene (InstancingEngine.convertToInstanced scene uuids iU gU).2 = scene
      rw [heq]
      rfl
    · rw [heq] at h
      simp at h
  · intro h
    rcases mergeMeshes_shape scene uuids mgU mmU with heq | ⟨r, pU, ds, heq, _⟩
    · show applyOps scene (MergeEngine.mergeMeshes scene uuids mgU mmU).2 = scene
      rw [heq]
      rfl
    · rw [heq] at h
      simp at h
  · intro h
    rcases generateLOD_shape scene u lU f1 f2 f3 with heq | ⟨r, pU, heq⟩
    · show applyOps scene (LODEngine.generateLOD scene u lU f1 f2 f3).2 = scene
      rw [heq]
      rfl
    · rw [heq] at h
      simp at h
  · intro r ops h
    rcases convertToInstanced_shape scene uuids iU gU with heq | ⟨r', pU, ds, heq, hds⟩
    · rw [heq] at h
      simp at h
    · rw [heq] at h
      injection h with h1 h2
      injection h1 with h1
      subst h1
      subst h2
      exact ⟨pU, ds, rfl, hds⟩
  · intro r ops h
    rcases mergeMeshes_shape scene uuids mgU mmU with heq | ⟨r', pU, ds, heq, hds⟩
    · rw [heq] at h
      simp at h
    · rw [heq] at h
      injection h with h1 h2
      injection h1 with h1
      subst h1
      subst h2
      exact ⟨pU, ds, rfl, hds⟩
  · intro r ops h
    rcases generateLOD_shape scene u lU f1 f2 f3 with heq | ⟨r', pU, heq⟩
    · rw [heq] at h
      simp at h
    · rw [heq] at h
      injection h with h1 h2
      injection h1 with h1
      subst h1
      subst h2
      exact ⟨pU, rfl⟩

theorem c4_failed_transforms_no_op_witness :
    (InstancingEngine.runInstancing exScene2 ["x", "y"] "inst" "geo2").2 = exScene2 ∧
      (MergeEngine.runMerge exScene2 ["x", "y"] "mgeo" "mmesh").2 = exScene2 ∧
      (LODEngine.runLOD exScene2 "zz" "lod" id id id).2 = exScene2 :=
  ⟨(c4_failed_transforms_no_op exScene2 ["x", "y"] "zz" "inst" "geo2" "mgeo" "mmesh" "lod"
      id id id).1 rfl,
   (c4_failed_transforms_no_op exScene2 ["x", "y"] "zz" "inst" "geo2" "mgeo" "mmesh" "lod"
      id id id).2.1 rfl,
   (c4_failed_transforms_no_op exScene2 ["x", "y"] "zz" "inst" "geo2" "mgeo" "mmesh" "lod"
      id id id).2.2.1 rfl⟩

/-! ## Claim C3 -/

/-- C3 counterexample: in `exScene1` exactly one of the two supplied ids
resolves to a live mesh with a parent, and `convertToInstanced` does NOT
return null — it returns a 1-slot instanced node (the source checks the
resolved list only against emptiness, `meshes.length === 0`, not against
`< 2`). -/
theorem c3_counterexample :
    (InstancingEngine.convertToInstanced exScene1 ["a", "b"] "inst" "geo2").1.map
      instSlotCount = some 1 := rfl

/-- C3 (amended): `convertToInstanced` returns null iff fewer than 2 ids
are supplied, or no supplied id resolves to a mesh node, or the first
resolved node has no parent; in particular, when at least 2 ids are
supplied and exactly one resolves, to a mesh with a parent, the call
returns a 1-slot instanced node rather than null. -/
theorem c3_null_characterization (scene : SceneNode) (us : List String)
    (a b : String) :
    ((InstancingEngine.convertToInstanced scene us a b).1 = none ↔
        us.length < 2 ∨ ((collectMeshes scene us).head?.bind MeshHit.parent) = none) ∧
      (∀ m0 pU pW, 2 ≤ us.length → collectMeshes scene us = [m0] →
        m0.parent = some (pU, pW) →
        ∃ inst, (InstancingEngine.convertToInstanced scene us a b).1 = some inst ∧
          instSlotCount inst = 1) := by
  constructor
  · constructor
    · intro h
      by_cases h1 : us.length < 2
      · exact Or.inl h1
      · cases hres : collectMeshes scene us with
        | nil => simp [hres]
        | cons m0 rest =>
          cases hp : m0.parent with
          | none => simp [hres, hp]
          | some pp =>
            rw [convertToInstanced_success scene us a b m0 rest pp.1 pp.2
              (by omega) hres hp] at h
            simp at h
    · intro h
      rcases h with h1 | h2
      · simp only [InstancingEngine.convertToInstanced, if_pos h1]
      · by_cases h1 : us.length < 2
        · simp only [InstancingEngine.convertToInstanced, if_pos h1]
        · cases hres : collectMeshes scene us with
          | nil => simp only [InstancingEngine.convertToInstanced, if_neg h1, hres]
          | cons m0 rest =>
            rw [hres] at h2
            simp only [List.head?_cons, Option.some_bind] at h2
            simp only [InstancingEngine.convertToInstanced, if_neg h1, hres, h2]
  · intro m0 pU pW hlen hres hp
    rw [show (InstancingEngine.convertToInstanced scene us a b).1 = some _ from
      congrArg Prod.fst (convertToInstanced_success scene us a b m0 [] pU pW hlen hres hp)]
    exact ⟨_, rfl, rfl⟩

theorem c3_null_characterization_witness :
    ((InstancingEngine.convertToInstanced exScene1 ["a", "b"] "inst" "geo2").1 = none ↔
        (["a", "b"] : List String).length < 2 ∨
          ((collectMeshes exScene1 ["a", "b"]).head?.bind MeshHit.parent) = none) ∧
      (∃ inst,
        (InstancingEngine.convertToInstanced exScene1 ["a", "b"] "inst" "geo2").1 = some inst ∧
          instSlotCount inst = 1) :=
  ⟨(c3_null_characterization exScene1 ["a", "b"] "inst" "geo2").1,
   (c3_null_characterization exScene1 ["a", "b"] "inst" "geo2").2 _ "root" (1 * 1)
     (by decide) rfl rfl⟩

/-! ## Resolution completeness and uniqueness -/

theorem collectGo_core_sublist (us : List String) :
    ∀ (t : SceneNode) (p : Option (String × Mat4)) (w : Mat4),
      List.Sublist ((collectGo us p w t).map MeshHit.core) (traverseCores t) := by
  intro t
  induction t using SceneNode.rec
    (motive_2 := fun cs => ∀ p w,
      List.Sublist ((collectGoF us p w cs).map MeshHit.core) (traverseCoresF cs)) with
  | node c cs ih =>
    intro p w
    unfold collectGo traverseCores
    rw [List.map_append]
    refine ?_
    have hrest := ih (some (c.uuid, w * c.localMatrix)) (w * c.localMatrix)
    split
    · split
      · exact List.Sublist.cons₂ c hrest
      · exact List.Sublist.cons c hrest
    · exact List.Sublist.cons c hrest
  | nil =>
    rename_i p w
    simp [collectGoF, traverseCoresF]
  | cons t ts ih1 ih2 =>
    rename_i p w
    unfold collectGoF traverseCoresF
    rw [List.map_append]
    exact List.Sublist.append (ih1 p w) (ih2 p w)

theorem collectGo_complete (us : List String) :
    ∀ (t : SceneNode) (p : Option (String × Mat4)) (w : Mat4) (c : NodeCore),
      c ∈ traverseCores t → (NodeKind.meshParts c.kind).isSome → c.uuid ∈ us →
      ∃ hit ∈ collectGo us p w t, hit.core = c := by
  intro t
  induction t using SceneNode.rec
    (motive_2 := fun cs => ∀ p w c, c ∈ traverseCoresF cs →
      (NodeKind.meshParts c.kind).isSome → c.uuid ∈ us →
      ∃ hit ∈ collectGoF us p w cs, hit.core = c) with
  | node c0 cs ih =>
    intro p w c hc hmesh hu
    unfold collectGo
    rcases List.mem_cons.1 (show c ∈ c0 :: traverseCoresF cs from hc) with rfl | htail
    · cases hgp : c.kind.meshParts with
      | none => rw [hgp] at hmesh; cases hmesh
      | some gp =>
        refine ⟨⟨c, gp.1, gp.2.1, gp.2.2.1, gp.2.2.2, w * c.localMatrix, p, .node c cs⟩,
          ?_, rfl⟩
        apply List.mem_append_left
        simp [hu]
    · rcases ih (some (c0.uuid, w * c0.localMatrix)) (w * c0.localMatrix) c htail hmesh hu
        with ⟨hit, hmem, hcore⟩
      exact ⟨hit, List.mem_append_right _ hmem, hcore⟩
  | nil =>
    rename_i p w c hc hmesh hu
    simp [traverseCoresF] at hc
  | cons t ts ih1 ih2 =>
    rename_i p w c hc hmesh hu
    unfold collectGoF
    rcases List.mem_append.1 (show c ∈ traverseCores t ++ traverseCoresF ts from hc) with hl | hr
    · rcases ih1 p w c hl hmesh hu with ⟨hit, hmem, hcore⟩
      exact ⟨hit, List.mem_append_left _ hmem, hcore⟩
    · rcases ih2 p w c hr hmesh hu with ⟨hit, hmem, hcore⟩
      exact ⟨hit, List.mem_append_right _ hmem, hcore⟩

/-- With scene-wide unique uuids, distinct supplied ids that all resolve
produce exactly one hit per id. -/
theorem collectMeshes_length (s : SceneNode) (us : List String)
    (hnodup : (sceneUuids s).Nodup) (husnodup : us.Nodup)
    (hresolve : ∀ u ∈ us, resolvesToMesh s u) :
    (collectMeshes s us).length = us.length := by
  have hsub : List.Sublist ((collectMeshes s us).map MeshHit.core) (traverseCores s) :=
    collectGo_core_sublist us s none 1
  have hsubU : List.Sublist ((collectMeshes s us).map (fun h => h.core.uuid)) (sceneUuids s) := by
    have := hsub.map NodeCore.uuid
    rw [List.map_map] at this
    exact this
  have hnodupH : ((collectMeshes s us).map (fun h => h.core.uuid)).Nodup :=
    hnodup.sublist hsubU
  have h1 : (collectMeshes s us).map (fun h => h.core.uuid) ⊆ us := by
    intro u hu
    rcases List.mem_map.1 hu with ⟨hit, hmem, rfl⟩
    exact collectMeshes_uuid_mem s us hit hmem
  have h2 : us ⊆ (collectMeshes s us).map (fun h => h.core.uuid) := by
    intro u hu
    rcases hresolve u hu with ⟨c, hc, hmesh, rfl⟩
    rcases collectGo_complete us s none 1 c hc hmesh hu with ⟨hit, hmem, hcore⟩
    exact List.mem_map.2 ⟨hit, hmem, by rw [hcore]⟩
  have hperm : List.Perm ((collectMeshes s us).map (fun h => h.core.uuid)) us :=
    (hnodupH.subperm h1).antisymm (husnodup.subperm h2)
  have := hperm.length_eq
  simpa using this

/-! ## Claim C1 -/

/-- C1 (amended): given ≥ 2 distinct ids that all resolve to mesh nodes
sharing one geometry and one material in a unique-uuid scene, where the
first resolved node has a parent AND the parent's world matrix is
invertible, `convertToInstanced` returns an instanced container with
exactly N slots (N = number of supplied ids), and for every slot the
parent's world matrix composed with the stored per-instance matrix
reproduces exactly (hence within tolerance 1e-5) the world matrix the
corresponding resolved original had before the transform.  The
invertibility proviso is forced by the counterexample: on a singular
parent, `Matrix4.invert` yields the zero matrix and the slot transforms
collapse. -/
theorem c1_instancing_preserves_world_transforms (scene : SceneNode)
    (uuids : List String) (iU gU : String) (m0 : MeshHit) (rest : List MeshHit)
    (pU : String) (pW : Mat4) (g : Geometry) (mat : Material)
    (hnodup : (sceneUuids scene).Nodup) (husnodup : uuids.Nodup)
    (hresolve : ∀ u ∈ uuids, resolvesToMesh scene u)
    (hlen : 2 ≤ uuids.length)
    (hres : collectMeshes scene uuids = m0 :: rest)
    (hshare : ∀ h ∈ m0 :: rest, h.geom = g ∧ h.mat = mat)
    (hp : m0.parent = some (pU, pW))
    (hdet : pW.det ≠ 0) :
    ∃ inst, (InstancingEngine.convertToInstanced scene uuids iU gU).1 = some inst ∧
      instSlotCount inst = uuids.length ∧
      (instMatrices inst).length = uuids.length ∧
      List.Forall₂ (fun (M : Mat4) (h : MeshHit) => matNear (pW * M) h.world (1 / 100000))
        (instMatrices inst) (m0 :: rest) := by
  have hlen2 : (m0 :: rest).length = uuids.length := by
    rw [← hres]
    exact collectMeshes_length scene uuids hnodup husnodup hresolve
  refine ⟨_, congrArg Prod.fst
    (convertToInstanced_success scene uuids iU gU m0 rest pU pW hlen hres hp), ?_, ?_, ?_⟩
  · exact hlen2
  · show ((m0 :: rest).map (fun h => inv4 pW * h.world)).length = uuids.length
    rw [List.length_map]
    exact hlen2
  · show List.Forall₂ _ ((m0 :: rest).map (fun h => inv4 pW * h.world)) (m0 :: rest)
    rw [List.forall₂_map_left_iff]
    rw [List.forall₂_same]
    intro h _
    rw [← mul_assoc, mul_inv4_self pW hdet, one_mul]
    exact matNear_refl _ _ (by norm_num)

theorem c1_instancing_preserves_world_transforms_witness :
    ∃ inst,
      (InstancingEngine.convertToInstanced exScene2 ["a", "b"] "inst" "geo2").1 = some inst ∧
      instSlotCount inst = (["a", "b"] : List String).length ∧
      (instMatrices inst).length = (["a", "b"] : List String).length ∧
      List.Forall₂
        (fun (M : Mat4) (h : MeshHit) => matNear (((1 : Mat4) * 1) * M) h.world (1 / 100000))
        (instMatrices inst) (collectMeshes exScene2 ["a", "b"]) :=
  c1_instancing_preserves_world_transforms exScene2 ["a", "b"] "inst" "geo2" _ _
    "root" (1 * 1) exG exM (by decide) (by decide)
    (by with_unfolding_all decide) (by decide) rfl
    (by with_unfolding_all decide) rfl
    (by simp)

/-- C1 counterexample: the claim as stated — without any invertibility
condition on the parent — fails.  In `exSceneSingular` both ids resolve
to meshes sharing geometry and material and the first resolved node has a
parent ("par", world matrix diag(2,0,1,1), which is singular).
`convertToInstanced` succeeds, but the first slot's world transform
(parent world × stored matrix) is the zero matrix while the original's
world matrix has entry 2 at (0,0): off by 2 ≫ 1e-5. -/
theorem c1_counterexample :
    (InstancingEngine.convertToInstanced exSceneSingular ["a", "b"] "inst" "geo2").1.isSome
        = true ∧
      ¬ matNear
        (worldMatrixOf exSceneSingular "par" *
          (((InstancingEngine.convertToInstanced exSceneSingular ["a", "b"] "inst"
            "geo2").1.map instMatrices).getD []).headD 1)
        (worldMatrixOf exSceneSingular "a") (1 / 100000) := by
  constructor
  · rfl
  · show ¬ matNear
      ((1 * 1 * singularLocal) *
        (inv4 (1 * 1 * singularLocal) * (1 * 1 * singularLocal * 1)))
      (1 * 1 * singularLocal * 1) (1 / 100000)
    have hdet : (singularLocal : Mat4).det = 0 := by
      simp [singularLocal, Matrix.det_diagonal, Fin.prod_univ_four]
    rw [one_mul, one_mul, mul_one, inv4_eq_zero_of_det_zero _ hdet,
      Matrix.zero_mul, Matrix.mul_zero]
    intro hnear
    have h00 := hnear 0 0
    rw [show (singularLocal : Mat4) 0 0 = 2 by
      simp [singularLocal, Matrix.diagonal_apply_eq]] at h00
    norm_num at h00

/-! ## Merge-geometry facts -/

theorem lookup_map_keyed {α β : Type} (l : List (String × α)) (f : String → α → β)
    (k : String) :
    (l.map (fun na => (na.1, f na.1 na.2))).lookup k = (l.lookup k).map (f k) := by
  induction l with
  | nil => rfl
  | cons na t ih =>
    obtain ⟨k', v'⟩ := na
    rw [List.map_cons, List.lookup_cons, List.lookup_cons]
    cases hbeq : k == k' with
    | true =>
      rw [eq_of_beq hbeq]
      rfl
    | false =>
      exact ih

theorem lookup_some_mem {α : Type} (l : List (String × α)) (k : String) (v : α)
    (h : l.lookup k = some v) : (k, v) ∈ l := by
  rcases List.lookup_eq_some_iff.1 h with ⟨l₁, l₂, rfl, _⟩
  exact List.mem_append_right _ (List.mem_cons_self _ _)

/-- A geometry compatible with `g0` has only attribute names that `g0`
also has. -/
theorem compat_names_sub (g0 g : Geometry)
    (h : MergeEngine.compatibleWith g0 g = true) :
    ∀ na ∈ g.attributes, (g0.attributes.lookup na.1).isSome := by
  intro na hna
  unfold MergeEngine.compatibleWith at h
  rw [Bool.and_eq_true, Bool.and_eq_true] at h
  have hall := List.all_eq_true.1 h.2 na hna
  revert hall
  cases g0.attributes.lookup na.1 with
  | none => intro hall; cases hall
  | some a0 => intro _; rfl

theorem mergeGeometries_some (g0 : Geometry) (gs : List Geometry) (nU : String)
    (hall : ∀ g ∈ g0 :: gs, MergeEngine.compatibleWith g0 g = true) :
    MergeEngine.mergeGeometries (g0 :: gs) nU = some
      { uuid := nU
        attributes := g0.attributes.map (fun na =>
          (na.1, ⟨na.2.itemSize,
            ((g0 :: gs).map (fun g => MergeEngine.countOf na.1 g)).sum⟩))
        index :=
          if g0.index.isSome then
            some (((g0 :: gs).map (fun g => g.index.getD 0)).sum)
          else none
        bboxSize := (0, 0, 0) } := by
  simp only [MergeEngine.mergeGeometries]
  rw [if_pos (List.all_eq_true.2 hall)]

/-- The merged geometry's vertex count is the sum of the inputs'. -/
theorem positionCount_mergeGeometries (g0 : Geometry) (gs : List Geometry) (nU : String)
    (hall : ∀ g ∈ g0 :: gs, MergeEngine.compatibleWith g0 g = true) :
    ∃ mg, MergeEngine.mergeGeometries (g0 :: gs) nU = some mg ∧
      mg.positionCount = ((g0 :: gs).map Geometry.positionCount).sum := by
  refine ⟨_, mergeGeometries_some g0 gs nU hall, ?_⟩
  show ((((g0.attributes.map (fun na =>
      (na.1, (⟨na.2.itemSize,
        ((g0 :: gs).map (fun g => MergeEngine.countOf na.1 g)).sum⟩ : GeomAttr)))).lookup
      "position").map GeomAttr.count).getD 0) = _
  rw [lookup_map_keyed g0.attributes
    (fun n a => (⟨a.itemSize, ((g0 :: gs).map (fun g => MergeEngine.countOf n g)).sum⟩ :
      GeomAttr)) "position"]
  cases hpos : g0.attributes.lookup "position" with
  | some a => rfl
  | none =>
    have hzero : ∀ g ∈ g0 :: gs, Geometry.positionCount g = 0 := by
      intro g hg
      unfold Geometry.positionCount
      cases hq : g.attributes.lookup "position" with
      | none => rfl
      | some a =>
        have hmem := lookup_some_mem _ _ _ hq
        have := compat_names_sub g0 g (hall g hg) ("position", a) hmem
        rw [hpos] at this
        cases this
    have : ((g0 :: gs).map Geometry.positionCount).sum = 0 := by
      rw [List.sum_eq_zero]
      intro x hx
      rcases List.mem_map.1 hx with ⟨g, hg, rfl⟩
      exact hzero g hg
    rw [this]
    rfl

/-! ## Claim C2 -/

/-- C2: merging M ≥ 2 resolved mesh nodes whose geometries have pairwise
compatible attribute layouts yields exactly one new mesh node whose
geometry's vertex count is the sum of the resolved inputs' vertex
counts. -/
theorem c2_merge_vertex_count (scene : SceneNode) (us : List String)
    (gU mU : String) (m0 : MeshHit) (rest : List MeshHit)
    (hnodup : (sceneUuids scene).Nodup) (husnodup : us.Nodup)
    (hresolve : ∀ u ∈ us, resolvesToMesh scene u)
    (hlen : 2 ≤ us.length)
    (hres : collectMeshes scene us = m0 :: rest)
    (hcompat : ∀ h ∈ m0 :: rest, MergeEngine.compatibleWith m0.geom h.geom = true) :
    ∃ node g, (MergeEngine.mergeMeshes scene us gU mU).1 = some node ∧
      meshGeometry node = some g ∧
      g.positionCount = ((m0 :: rest).map (fun h => h.geom.positionCount)).sum := by
  have hall : ∀ g ∈ ((m0.geom.cloneWith (m0.geom.uuid ++ "-clone")).bake m0.world) ::
      rest.map (fun h => (h.geom.cloneWith (h.geom.uuid ++ "-clone")).bake h.world),
      MergeEngine.compatibleWith ((m0.geom.cloneWith (m0.geom.uuid ++ "-clone")).bake
        m0.world) g = true := by
    intro g hg
    have hg' : g ∈ (m0 :: rest).map (fun h =>
        (h.geom.cloneWith (h.geom.uuid ++ "-clone")).bake h.world) := hg
    rcases List.mem_map.1 hg' with ⟨h, hh, rfl⟩
    exact hcompat h hh
  rcases positionCount_mergeGeometries _ _ gU hall with ⟨mg, hmg, hcount⟩
  have hmain := mergeMeshes_success scene us gU mU m0 rest mg hlen hres hmg
  refine ⟨_, mg, congrArg Prod.fst hmain, rfl, ?_⟩
  rw [hcount, List.map_cons, List.map_map]
  rfl

theorem c2_merge_vertex_count_witness :
    ∃ node g,
      (MergeEngine.mergeMeshes exScene2 ["a", "b"] "mgeo" "mmesh").1 = some node ∧
      meshGeometry node = some g ∧
      g.positionCount = ((collectMeshes exScene2 ["a", "b"]).map
        (fun h => h.geom.positionCount)).sum :=
  c2_merge_vertex_count exScene2 ["a", "b"] "mgeo" "mmesh" _ _
    (by decide) (by decide) (by with_unfolding_all decide) (by decide) rfl
    (by with_unfolding_all decide)

/-! ## Collected-uuid bounds for the analyzer -/

theorem mem_setKey {α : Type} (k : String) (v : α) (l : List (String × α)) :
    ∀ kg ∈ setKey k v l, kg ∈ l ∨ kg = (k, v) := by
  induction l with
  | nil =>
    intro kg hkg
    rcases List.mem_singleton.1 hkg with rfl
    exact Or.inr rfl
  | cons na t ih =>
    obtain ⟨k', v'⟩ := na
    intro kg hkg
    unfold setKey at hkg
    by_cases hk : k' = k
    · rw [if_pos hk] at hkg
      rcases List.mem_cons.1 hkg with rfl | htail
      · exact Or.inr rfl
      · exact Or.inl (List.mem_cons_of_mem _ htail)
    · rw [if_neg hk] at hkg
      rcases List.mem_cons.1 hkg with rfl | htail
      · exact Or.inl (List.mem_cons_self _ _)
      · rcases ih kg htail with hl | hr
        · exact Or.inl (List.mem_cons_of_mem _ hl)
        · exact Or.inr hr

theorem addTexUse_affected_sub (mu : String) (tex : Texture)
    (ts : List TexEntry) :
    ∀ e ∈ addTexUse mu tex ts, ∀ u ∈ e.affectedUuids,
      (∃ e' ∈ ts, u ∈ e'.affectedUuids) ∨ u = mu := by
  induction ts with
  | nil =>
    intro e he u hu
    rcases List.mem_singleton.1 he with rfl
    exact Or.inr (List.mem_singleton.1 hu)
  | cons e0 t ih =>
    intro e he u hu
    unfold addTexUse at he
    by_cases hid : e0.uuid = tex.uuid
    · rw [if_pos hid] at he
      rcases List.mem_cons.1 he with rfl | htail
      · rcases List.mem_append.1 hu with h1 | h2
        · exact Or.inl ⟨e0, List.mem_cons_self _ _, h1⟩
        · exact Or.inr (List.mem_singleton.1 h2)
      · exact Or.inl ⟨e, List.mem_cons_of_mem _ htail, hu⟩
    · rw [if_neg hid] at he
      rcases List.mem_cons.1 he with rfl | htail
      · exact Or.inl ⟨e, List.mem_cons_self _ _, hu⟩
      · rcases ih e htail u hu with ⟨e', he', hu'⟩ | hr
        · exact Or.inl ⟨e', List.mem_cons_of_mem _ he', hu'⟩
        · exact Or.inr hr

theorem texFold_affected_sub (mu : String) (slots : List (Option Texture)) :
    ∀ (ts : List TexEntry),
      ∀ e ∈ slots.foldl (fun ts o => match o with
          | some tex => addTexUse mu tex ts
          | none => ts) ts,
        ∀ u ∈ e.affectedUuids, (∃ e' ∈ ts, u ∈ e'.affectedUuids) ∨ u = mu := by
  induction slots with
  | nil =>
    intro ts e he u hu
    exact Or.inl ⟨e, he, hu⟩
  | cons o t ih =>
    intro ts e he u hu
    rw [List.foldl_cons] at he
    cases o with
    | none => exact ih ts e he u hu
    | some tex =>
      rcases ih _ e he u hu with ⟨e', he', hu'⟩ | hr
      · rcases addTexUse_affected_sub mu tex ts e' he' u hu' with h1 | h2
        · exact Or.inl h1
        · exact Or.inr h2
      · exact Or.inr hr

/-- One visit step adds only the visited mesh's uuid to the collected
uuids. -/
theorem dataUuids_visitMesh_sub (d : RawSceneData) (r : MeshRec) :
    ∀ u ∈ dataUuids (visitMesh d r), u ∈ dataUuids d ∨ u = r.uuid := by
  intro u hu
  unfold dataUuids visitMesh at hu
  unfold dataUuids
  rw [List.mem_append, List.mem_append, List.mem_append] at hu
  rcases hu with ((h1 | h2) | h3) | h4
  · -- mesh details
    rw [List.map_append, List.mem_append] at h1
    rcases h1 with h1 | h1
    · exact Or.inl (by
        rw [List.mem_append, List.mem_append, List.mem_append]
        exact Or.inl (Or.inl (Or.inl h1)))
    · rcases List.mem_map.1 h1 with ⟨dd, hdd, rfl⟩
      rcases List.mem_singleton.1 hdd with rfl
      exact Or.inr rfl
  · -- geometry entries
    rcases List.mem_flatMap.1 h2 with ⟨kg, hkg, hukg⟩
    rcases mem_setKey _ _ _ kg hkg with hold | rfl
    · exact Or.inl (by
        rw [List.mem_append, List.mem_append, List.mem_append]
        exact Or.inl (Or.inl (Or.inr (List.mem_flatMap.2 ⟨kg, hold, hukg⟩))))
    · rcases List.mem_append.1 hukg with hOld | hNew
      · cases hlook : d.geometries.lookup r.geom.uuid with
        | none =>
          rw [hlook] at hOld
          exact absurd hOld (List.not_mem_nil _)
        | some e0 =>
          rw [hlook] at hOld
          have hmem := lookup_some_mem _ _ _ hlook
          exact Or.inl (by
            rw [List.mem_append, List.mem_append, List.mem_append]
            exact Or.inl (Or.inl (Or.inr (List.mem_flatMap.2
              ⟨(r.geom.uuid, e0), hmem, hOld⟩))))
      · exact Or.inr (List.mem_singleton.1 hNew)
  · -- material entries
    rcases List.mem_flatMap.1 h3 with ⟨kg, hkg, hukg⟩
    rcases mem_setKey _ _ _ kg hkg with hold | rfl
    · exact Or.inl (by
        rw [List.mem_append, List.mem_append, List.mem_append]
        exact Or.inl (Or.inr (List.mem_flatMap.2 ⟨kg, hold, hukg⟩)))
    · rcases List.mem_append.1 hukg with hOld | hNew
      · cases hlook : d.materials.lookup r.mat.uuid with
        | none =>
          rw [hlook] at hOld
          exact absurd hOld (List.not_mem_nil _)
        | some e0 =>
          rw [hlook] at hOld
          have hmem := lookup_some_mem _ _ _ hlook
          exact Or.inl (by
            rw [List.mem_append, List.mem_append, List.mem_append]
            exact Or.inl (Or.inr (List.mem_flatMap.2 ⟨(r.mat.uuid, e0), hmem, hOld⟩)))
      · exact Or.inr (List.mem_singleton.1 hNew)
  · -- texture entries
    rcases List.mem_flatMap.1 h4 with ⟨e, he, hue⟩
    rcases texFold_affected_sub r.uuid r.mat.mapSlots d.textures e he u hue with
      ⟨e', he', hu'⟩ | hr
    · exact Or.inl (by
        rw [List.mem_append, List.mem_append, List.mem_append]
        exact Or.inr (List.mem_flatMap.2 ⟨e', he', hu'⟩))
    · exact Or.inr hr

theorem dataUuids_foldl_sub (l : List NodeCore) :
    ∀ (d : RawSceneData), ∀ u ∈ dataUuids (l.foldl visitNode d),
      u ∈ dataUuids d ∨ u ∈ (extractedOf l).map MeshRec.uuid := by
  induction l with
  | nil =>
    intro d u hu
    exact Or.inl hu
  | cons c t ih =>
    intro d u hu
    rw [List.foldl_cons] at hu
    rcases ih (visitNode d c) u hu with h1 | h2
    · unfold visitNode at h1
      cases hact : activeMesh c with
      | none =>
        rw [hact] at h1
        exact Or.inl h1
      | some r =>
        rw [hact] at h1
        rcases dataUuids_visitMesh_sub d r u h1 with hl | rfl
        · exact Or.inl hl
        · refine Or.inr (List.mem_map.2 ⟨r, ?_, rfl⟩)
          unfold extractedOf
          exact List.mem_filterMap.2 ⟨c, List.mem_cons_self _ _, hact⟩
    · refine Or.inr ?_
      rcases List.mem_map.1 h2 with ⟨r, hr, rfl⟩
      unfold extractedOf at hr ⊢
      rcases List.mem_filterMap.1 hr with ⟨c', hc', hact'⟩
      exact List.mem_map.2 ⟨r, List.mem_filterMap.2 ⟨c', List.mem_cons_of_mem _ hc', hact'⟩, rfl⟩

/-- Every uuid the analyzer records belongs to an untagged mesh node of
the traversal. -/
theorem dataUuids_analyze_sub (s : SceneNode) :
    ∀ u ∈ dataUuids (SceneAnalyzer.analyze s),
      u ∈ (extractedMeshes s).map MeshRec.uuid := by
  intro u hu
  rcases dataUuids_foldl_sub (traverseCores s) emptyData u hu with h1 | h2
  · simp [dataUuids, emptyData] at h1
  · exact h2

theorem extracted_untagged (l : List NodeCore) (u : String)
    (h : u ∈ (extractedOf l).map MeshRec.uuid) :
    ∃ c ∈ l, c.tag = none ∧ c.uuid = u := by
  rcases List.mem_map.1 h with ⟨r, hr, rfl⟩
  rcases List.mem_filterMap.1 hr with ⟨c, hc, hact⟩
  unfold activeMesh at hact
  by_cases htag : c.tag.isSome
  · rw [if_pos htag] at hact
    cases hact
  · rw [if_neg htag] at hact
    refine ⟨c, hc, Option.not_isSome_iff_eq_none.1 htag, ?_⟩
    revert hact
    cases c.kind.meshParts with
    | none => intro hact; cases hact
    | some gp =>
      intro hact
      injection hact with hact
      rw [← hact]

/-! ## Issue-affected bounds for the evaluator -/

theorem instancingFold_affected_sub (ds : List MeshDetail) :
    ∀ (gs : List (String × OptimizationEngine.InstGroup)),
      ∀ kg ∈ ds.foldl OptimizationEngine.instancingStep gs,
        ∀ u ∈ kg.2.affectedUuids,
          (∃ kg' ∈ gs, u ∈ kg'.2.affectedUuids) ∨ u ∈ ds.map MeshDetail.uuid := by
  induction ds with
  | nil =>
    intro gs kg hkg u hu
    exact Or.inl ⟨kg, hkg, hu⟩
  | cons d t ih =>
    intro gs kg hkg u hu
    rw [List.foldl_cons] at hkg
    rcases ih _ kg hkg u hu with ⟨kg', hkg', hu'⟩ | htail
    · unfold OptimizationEngine.instancingStep at hkg'
      by_cases hst : d.isStatic
      · rw [if_pos hst] at hkg'
        rcases mem_setKey _ _ _ kg' hkg' with hold | rfl
        · exact Or.inl ⟨kg', hold, hu'⟩
        · rcases List.mem_append.1 hu' with hOld | hNew
          · cases hlook : gs.lookup (OptimizationEngine.instKey d) with
            | none =>
              rw [hlook] at hOld
              exact absurd hOld (List.not_mem_nil _)
            | some e0 =>
              rw [hlook] at hOld
              exact Or.inl ⟨(OptimizationEngine.instKey d, e0),
                lookup_some_mem _ _ _ hlook, hOld⟩
          · rw [List.mem_singleton.1 hNew]
            exact Or.inr (List.mem_map.2 ⟨d, List.mem_cons_self _ _, rfl⟩)
      · rw [if_neg hst] at hkg'
        exact Or.inl ⟨kg', hkg', hu'⟩
    · exact Or.inr (List.mem_map.1 htail |>.elim
        (fun d' hd' => List.mem_map.2 ⟨d', List.mem_cons_of_mem _ hd'.1, hd'.2⟩))

theorem materialFold_affected_sub (ds : List MeshDetail) :
    ∀ (gs : List (String × List String)),
      ∀ kg ∈ ds.foldl OptimizationEngine.materialStep gs,
        ∀ u ∈ kg.2, (∃ kg' ∈ gs, u ∈ kg'.2) ∨ u ∈ ds.map MeshDetail.uuid := by
  induction ds with
  | nil =>
    intro gs kg hkg u hu
    exact Or.inl ⟨kg, hkg, hu⟩
  | cons d t ih =>
    intro gs kg hkg u hu
    rw [List.foldl_cons] at hkg
    rcases ih _ kg hkg u hu with ⟨kg', hkg', hu'⟩ | htail
    · unfold OptimizationEngine.materialStep at hkg'
      by_cases hst : d.isStatic
      · rw [if_pos hst] at hkg'
        rcases mem_setKey _ _ _ kg' hkg' with hold | rfl
        · exact Or.inl ⟨kg', hold, hu'⟩
        · rcases List.mem_append.1 hu' with hOld | hNew
          · cases hlook : gs.lookup d.materialUuid with
            | none =>
              rw [hlook] at hOld
              exact absurd hOld (List.not_mem_nil _)
            | some e0 =>
              rw [hlook] at hOld
              exact Or.inl ⟨(d.materialUuid, e0), lookup_some_mem _ _ _ hlook, hOld⟩
          · rw [List.mem_singleton.1 hNew]
            exact Or.inr (List.mem_map.2 ⟨d, List.mem_cons_self _ _, rfl⟩)
      · rw [if_neg hst] at hkg'
        exact Or.inl ⟨kg', hkg', hu'⟩
    · exact Or.inr (List.mem_map.1 htail |>.elim
        (fun d' hd' => List.mem_map.2 ⟨d', List.mem_cons_of_mem _ hd'.1, hd'.2⟩))

theorem evaluate_affected_sub (d : RawSceneData) :
    ∀ i ∈ (OptimizationEngine.evaluate d).issues, ∀ u ∈ issueAffected i,
      u ∈ d.meshDetails.map MeshDetail.uuid := by
  intro i hi u hu
  simp only [OptimizationEngine.evaluate, List.mem_append] at hi
  rcases hi with ((((h1 | h2) | h3) | h4) | h5) | h6
  · rcases List.mem_filterMap.1 h1 with ⟨kg, hkg, hsome⟩
    unfold OptimizationEngine.instGroupIssue at hsome
    by_cases hlen : 1 < kg.2.affectedUuids.length
    · rw [if_pos hlen] at hsome
      injection hsome with hsome
      rw [← hsome] at hu
      unfold issueAffected at hu
      simp only [Option.getD_some] at hu
      rcases instancingFold_affected_sub d.meshDetails [] kg hkg u hu with ⟨_, h, _⟩ | hm
      · exact absurd h (List.not_mem_nil _)
      · exact hm
    · rw [if_neg hlen] at hsome
      cases hsome
  · rcases List.mem_filterMap.1 h2 with ⟨kg, hkg, hsome⟩
    unfold OptimizationEngine.mergeGroupIssue at hsome
    by_cases hlen : 5 < kg.2.length
    · rw [if_pos hlen] at hsome
      injection hsome with hsome
      rw [← hsome] at hu
      unfold issueAffected at hu
      simp only [Option.getD_some] at hu
      rcases materialFold_affected_sub d.meshDetails [] kg hkg u hu with ⟨_, h, _⟩ | hm
      · exact absurd h (List.not_mem_nil _)
      · exact hm
    · rw [if_neg hlen] at hsome
      cases hsome
  · unfold OptimizationEngine.fragIssues at h3
    by_cases hc : OptimizationEngine.fragCond d
    · rw [if_pos hc] at h3
      rw [List.mem_singleton.1 h3] at hu
      simp [issueAffected] at hu
    · rw [if_neg hc] at h3
      exact absurd h3 (List.not_mem_nil _)
  · rcases List.mem_filterMap.1 h4 with ⟨t, ht, hsome⟩
    unfold OptimizationEngine.texIssue at hsome
    by_cases harea : 2048 * 2048 < OptimizationEngine.texArea t
    · rw [if_pos harea] at hsome
      by_cases hov : OptimizationEngine.overkillUuids d.meshDetails t ≠ []
      · rw [if_pos hov] at hsome
        injection hsome with hsome
        rw [← hsome] at hu
        unfold issueAffected at hu
        simp only [Option.getD_some] at hu
        unfold OptimizationEngine.overkillUuids at hu
        rcases List.mem_map.1 hu with ⟨m, hm, rfl⟩
        exact List.mem_map.2 ⟨m, List.mem_of_mem_filter hm, rfl⟩
      · rw [if_neg hov] at hsome
        cases hsome
    · rw [if_neg harea] at hsome
      cases hsome
  · unfold OptimizationEngine.densityIssues at h5
    by_cases hne : OptimizationEngine.highDensityMeshes d.meshDetails ≠ []
    · rw [if_pos hne] at h5
      rw [List.mem_singleton.1 h5] at hu
      unfold issueAffected at hu
      simp only [Option.getD_some] at hu
      unfold OptimizationEngine.highDensityMeshes at hu
      rcases List.mem_map.1 hu with ⟨m, hm, rfl⟩
      exact List.mem_map.2 ⟨m, List.mem_of_mem_filter hm, rfl⟩
    · rw [if_neg hne] at h5
      exact absurd h5 (List.not_mem_nil _)
  · unfold OptimizationEngine.lodIssues at h6
    by_cases hne : OptimizationEngine.lodCandidates d.meshDetails ≠ []
    · rw [if_pos hne] at h6
      rw [List.mem_singleton.1 h6] at hu
      unfold issueAffected at hu
      simp only [Option.getD_some] at hu
      rcases List.mem_map.1 hu with ⟨m, hm, rfl⟩
      exact List.mem_map.2 ⟨m, List.mem_of_mem_filter hm, rfl⟩
    · rw [if_neg hne] at h6
      exact absurd h6 (List.not_mem_nil _)

/-! ## Claim C7 -/

/-- C7: a provenance-tagged node contributes nothing to fact extraction —
its uuid appears in no mesh detail, no geometry/material/texture catalog
entry, and in no issue of the subsequent analysis pass.  (Scene-wide
unique uuids, as three.js guarantees.) -/
theorem c7_tagged_nodes_excluded (s : SceneNode) (c : NodeCore)
    (hnodup : (sceneUuids s).Nodup) (hc : c ∈ traverseCores s)
    (htag : c.tag.isSome) :
    c.uuid ∉ (SceneAnalyzer.analyze s).meshDetails.map MeshDetail.uuid ∧
      (∀ kg ∈ (SceneAnalyzer.analyze s).geometries, c.uuid ∉ kg.2.affectedUuids) ∧
      (∀ kg ∈ (SceneAnalyzer.analyze s).materials, c.uuid ∉ kg.2.affectedUuids) ∧
      (∀ e ∈ (SceneAnalyzer.analyze s).textures, c.uuid ∉ e.affectedUuids) ∧
      (∀ i ∈ (analysisPass s).issues, c.uuid ∉ issueAffected i) := by
  have hkey : c.uuid ∉ (extractedMeshes s).map MeshRec.uuid := by
    intro hmem
    rcases extracted_untagged (traverseCores s) c.uuid hmem with ⟨c', hc', htag', huuid⟩
    have hcc : c' = c := List.inj_on_of_nodup_map hnodup hc' hc huuid
    rw [hcc] at htag'
    rw [htag'] at htag
    cases htag
  have hdata : c.uuid ∉ dataUuids (SceneAnalyzer.analyze s) := fun hmem =>
    hkey (dataUuids_analyze_sub s c.uuid hmem)
  rw [dataUuids] at hdata
  simp only [List.mem_append, not_or, List.mem_flatMap, not_exists, not_and] at hdata
  obtain ⟨⟨⟨hd1, hd2⟩, hd3⟩, hd4⟩ := hdata
  refine ⟨hd1, ?_, ?_, ?_, ?_⟩
  · intro kg hkg hmem
    exact hd2 kg hkg hmem
  · intro kg hkg hmem
    exact hd3 kg hkg hmem
  · intro e he hmem
    exact hd4 e he hmem
  · intro i hi hmem
    exact hd1 (evaluate_affected_sub _ i hi c.uuid hmem)

theorem c7_tagged_nodes_excluded_witness :
    "opt" ∉ (SceneAnalyzer.analyze exSceneTagged).meshDetails.map MeshDetail.uuid ∧
      (∀ kg ∈ (SceneAnalyzer.analyze exSceneTagged).geometries,
        "opt" ∉ kg.2.affectedUuids) ∧
      (∀ kg ∈ (SceneAnalyzer.analyze exSceneTagged).materials,
        "opt" ∉ kg.2.affectedUuids) ∧
      (∀ e ∈ (SceneAnalyzer.analyze exSceneTagged).textures,
        "opt" ∉ e.affectedUuids) ∧
      (∀ i ∈ (analysisPass exSceneTagged).issues, "opt" ∉ issueAffected i) :=
  c7_tagged_nodes_excluded exSceneTagged
    ⟨"opt", 1, some ⟨"instancing", some 3⟩, .mesh exG exM false false⟩
    (by decide) (by decide) rfl

/-! ## Adding a duplicate-geometry group to a scene -/

theorem traverseCoresF_append (xs ys : SceneForest) :
    traverseCoresF (xs.append ys) = traverseCoresF xs ++ traverseCoresF ys := by
  induction xs using SceneForest.rec (motive_1 := fun _ => True) with
  | node => trivial
  | nil => rfl
  | cons t ts ih1 ih2 =>
    show traverseCores t ++ traverseCoresF (ts.append ys) =
      (traverseCores t ++ traverseCoresF ts) ++ traverseCoresF ys
    rw [ih2, List.append_assoc]

theorem traverseCoresF_group (us : List String) (g : Geometry) (m : Material) :
    traverseCoresF (SceneForest.ofList (us.map (fun u => groupMeshNode u g m))) =
      us.map (fun u => ⟨u, 1, none, .mesh g m false false⟩) := by
  induction us with
  | nil => rfl
  | cons u t ih =>
    show traverseCoresF (.cons (groupMeshNode u g m) _) = _
    unfold traverseCoresF
    rw [ih]
    rfl

theorem traverseCores_addGroup (t : SceneNode) (us : List String)
    (g : Geometry) (m : Material) :
    traverseCores (addGroup t us g m) =
      traverseCores t ++ us.map (fun u => ⟨u, 1, none, .mesh g m false false⟩) := by
  obtain ⟨c, cs⟩ := t
  show traverseCores (.node c (cs.append _)) = _
  unfold traverseCores
  rw [traverseCoresF_append, traverseCoresF_group]
  rfl

theorem texFold_all_none (slots : List (Option Texture)) (mu : String)
    (h : ∀ o ∈ slots, o = none) :
    ∀ ts : List TexEntry,
      slots.foldl (fun ts o => match o with
        | some tex => addTexUse mu tex ts
        | none => ts) ts = ts := by
  induction slots with
  | nil => intro ts; rfl
  | cons o t ih =>
    intro ts
    rw [List.foldl_cons, h o (List.mem_cons_self _ _)]
    exact ih (fun o' ho' => h o' (List.mem_cons_of_mem _ ho')) ts

/-- Analyzing the scene with the fresh group appended: textures are
untouched (the group's material has no maps) and the mesh details gain
one entry per group member, in order. -/
theorem analyze_addGroup (t : SceneNode) (us : List String)
    (g : Geometry) (m : Material) (hm : ∀ o ∈ m.mapSlots, o = none) :
    (SceneAnalyzer.analyze (addGroup t us g m)).textures =
        (SceneAnalyzer.analyze t).textures ∧
      (SceneAnalyzer.analyze (addGroup t us g m)).meshDetails =
        (SceneAnalyzer.analyze t).meshDetails ++
          us.map (fun u => detailOf ⟨u, g, m, false, false⟩) := by
  unfold SceneAnalyzer.analyze
  rw [traverseCores_addGroup, List.foldl_append]
  generalize (traverseCores t).foldl visitNode emptyData = d
  induction us generalizing d with
  | nil => exact ⟨rfl, by simp⟩
  | cons u t' ih =>
    rw [List.map_cons, List.foldl_cons]
    have hstep : visitNode d ⟨u, 1, none, .mesh g m false false⟩ =
        visitMesh d ⟨u, g, m, false, false⟩ := rfl
    rw [hstep]
    rcases ih (visitMesh d ⟨u, g, m, false, false⟩) with ⟨h1, h2⟩
    constructor
    · rw [h1]
      exact texFold_all_none m.mapSlots u hm d.textures
    · rw [h2]
      show (d.meshDetails ++ [detailOf ⟨u, g, m, false, false⟩]) ++ _ = _
      rw [List.append_assoc]
      rfl

/-! ## Instancing-group bookkeeping for a fresh key -/

theorem setKey_fresh {α : Type} (k : String) (v : α) (l : List (String × α))
    (h : l.lookup k = none) : setKey k v l = l ++ [(k, v)] := by
  induction l with
  | nil => rfl
  | cons na t ih =>
    obtain ⟨k', v'⟩ := na
    have hne : ¬ (k' = k) := by
      have := List.lookup_eq_none_iff.1 h (k', v') (List.mem_cons_self _ _)
      simp at this
      exact fun hk => this hk.symm
    rw [List.lookup_cons] at h
    have hbeq : (k == k') = false := by
      cases hb : k == k' with
      | false => rfl
      | true => exact absurd (eq_of_beq hb).symm hne
    rw [hbeq] at h
    unfold setKey
    rw [if_neg hne, ih h]
    rfl

theorem setKey_append_of_fresh {α : Type} (gs : List (String × α)) (K : String)
    (v w : α) (h : gs.lookup K = none) :
    setKey K v (gs ++ [(K, w)]) = gs ++ [(K, v)] := by
  induction gs with
  | nil =>
    show setKey K v [(K, w)] = [(K, v)]
    unfold setKey
    rw [if_pos rfl]
  | cons na t ih =>
    obtain ⟨k', v'⟩ := na
    have hne : ¬ (k' = K) := by
      have := List.lookup_eq_none_iff.1 h (k', v') (List.mem_cons_self _ _)
      simp at this
      exact fun hk => this hk.symm
    rw [List.lookup_cons] at h
    have hbeq : (K == k') = false := by
      cases hb : K == k' with
      | false => rfl
      | true => exact absurd (eq_of_beq hb).symm hne
    rw [hbeq] at h
    show setKey K v ((k', v') :: (t ++ [(K, w)])) = _
    unfold setKey
    rw [if_neg hne, ih h]
    rfl

theorem lookup_append_self {α : Type} (gs : List (String × α)) (K : String) (w : α)
    (h : gs.lookup K = none) : (gs ++ [(K, w)]).lookup K = some w := by
  rw [List.lookup_append, h]
  simp

theorem instancingFold_push (K : String) (ds : List MeshDetail)
    (hkey : ∀ d ∈ ds, OptimizationEngine.instKey d = K ∧ d.isStatic = true) :
    ∀ (gs : List (String × OptimizationEngine.InstGroup))
      (gr : OptimizationEngine.InstGroup), gs.lookup K = none →
      ds.foldl OptimizationEngine.instancingStep (gs ++ [(K, gr)]) =
        gs ++ [(K, { gr with affectedUuids := gr.affectedUuids ++ ds.map MeshDetail.uuid })] := by
  induction ds with
  | nil =>
    intro gs gr _
    simp
  | cons d t ih =>
    intro gs gr hfresh
    obtain ⟨hkd, hst⟩ := hkey d (List.mem_cons_self _ _)
    rw [List.foldl_cons]
    have hstep : OptimizationEngine.instancingStep (gs ++ [(K, gr)]) d =
        gs ++ [(K, { gr with affectedUuids := gr.affectedUuids ++ [d.uuid] })] := by
      unfold OptimizationEngine.instancingStep
      rw [if_pos hst, hkd, lookup_append_self gs K gr hfresh]
      exact setKey_append_of_fresh gs K _ gr hfresh
    rw [hstep, ih (fun d' hd' => hkey d' (List.mem_cons_of_mem _ hd')) gs _ hfresh]
    rw [List.append_assoc]
    rfl

theorem instancingStep_fresh (gs : List (String × OptimizationEngine.InstGroup))
    (d : MeshDetail) (hst : d.isStatic = true)
    (hfresh : gs.lookup (OptimizationEngine.instKey d) = none) :
    OptimizationEngine.instancingStep gs d =
      gs ++ [(OptimizationEngine.instKey d,
        ⟨d.geometryUuid, d.materialUuid, [d.uuid]⟩)] := by
  unfold OptimizationEngine.instancingStep
  rw [if_pos hst, hfresh]
  exact setKey_fresh _ _ _ hfresh

theorem instancingGroups_append_freshkey (ds₁ ds₂ : List MeshDetail) (K : String)
    (hfresh : (OptimizationEngine.instancingGroups ds₁).lookup K = none)
    (hkey : ∀ d ∈ ds₂, OptimizationEngine.instKey d = K ∧ d.isStatic = true) :
    ds₂ = [] ∧ OptimizationEngine.instancingGroups (ds₁ ++ ds₂) =
        OptimizationEngine.instancingGroups ds₁ ∨
      ∃ gr : OptimizationEngine.InstGroup,
        OptimizationEngine.instancingGroups (ds₁ ++ ds₂) =
          OptimizationEngine.instancingGroups ds₁ ++ [(K, gr)] ∧
        gr.affectedUuids = ds₂.map MeshDetail.uuid := by
  have hgs : OptimizationEngine.instancingGroups (ds₁ ++ ds₂) =
      ds₂.foldl OptimizationEngine.instancingStep
        (OptimizationEngine.instancingGroups ds₁) := by
    unfold OptimizationEngine.instancingGroups
    rw [List.foldl_append]
  cases ds₂ with
  | nil => exact Or.inl ⟨rfl, hgs⟩
  | cons d t =>
    right
    obtain ⟨hkd, hst⟩ := hkey d (List.mem_cons_self _ _)
    rw [hgs, List.foldl_cons,
      instancingStep_fresh _ d hst (by rw [hkd]; exact hfresh), hkd,
      instancingFold_push K t
        (fun d' hd' => hkey d' (List.mem_cons_of_mem _ hd')) _ _ hfresh]
    exact ⟨_, rfl, rfl⟩

/-! ## Deduction facts -/

theorem instancingDeduction_append (gs₁ gs₂ : List (String × OptimizationEngine.InstGroup)) :
    OptimizationEngine.instancingDeduction (gs₁ ++ gs₂) =
      OptimizationEngine.instancingDeduction gs₁ +
        OptimizationEngine.instancingDeduction gs₂ := by
  unfold OptimizationEngine.instancingDeduction
  rw [List.map_append, List.sum_append]

theorem instancingIssues_nil_deduction (gs : List (String × OptimizationEngine.InstGroup))
    (h : OptimizationEngine.instancingIssues gs = []) :
    OptimizationEngine.instancingDeduction gs = 0 := by
  unfold OptimizationEngine.instancingIssues at h
  unfold OptimizationEngine.instancingDeduction
  rw [List.sum_eq_zero]
  intro x hx
  rcases List.mem_map.1 hx with ⟨kg, hkg, rfl⟩
  have hnone := List.filterMap_eq_nil_iff.1 h kg hkg
  unfold OptimizationEngine.instGroupIssue at hnone
  unfold OptimizationEngine.instGroupDeduction
  by_cases hlen : 1 < kg.2.affectedUuids.length
  · rw [if_pos hlen] at hnone
    cases hnone
  · rw [if_neg hlen]

theorem fragIssues_nil_deduction (d : RawSceneData)
    (h : OptimizationEngine.fragIssues d = []) :
    OptimizationEngine.fragDeduction d = 0 := by
  unfold OptimizationEngine.fragIssues at h
  unfold OptimizationEngine.fragDeduction
  by_cases hc : OptimizationEngine.fragCond d
  · rw [if_pos hc] at h
    cases h
  · rw [if_neg hc]

theorem texIssues_nil_deduction (d : RawSceneData)
    (h : OptimizationEngine.texIssues d = []) :
    OptimizationEngine.texDeduction d = 0 := by
  unfold OptimizationEngine.texDeduction
  rw [h]
  rfl

theorem densityIssues_nil_empty (ds : List MeshDetail)
    (h : OptimizationEngine.densityIssues ds = []) :
    OptimizationEngine.highDensityMeshes ds = [] := by
  unfold OptimizationEngine.densityIssues at h
  by_cases hne : OptimizationEngine.highDensityMeshes ds ≠ []
  · rw [if_pos hne] at h
    cases h
  · exact Classical.not_not.1 hne

theorem evaluate_score_eq (d : RawSceneData) :
    (OptimizationEngine.evaluate d).score =
      max 0 (100 - OptimizationEngine.instancingDeduction
          (OptimizationEngine.instancingGroups d.meshDetails)
        - OptimizationEngine.fragDeduction d
        - OptimizationEngine.texDeduction d
        - OptimizationEngine.densityDeduction d.meshDetails) := rfl

theorem evaluate_issues_eq (d : RawSceneData) :
    (OptimizationEngine.evaluate d).issues =
      OptimizationEngine.instancingIssues
          (OptimizationEngine.instancingGroups d.meshDetails)
        ++ OptimizationEngine.mergeIssues
          (OptimizationEngine.materialGroups d.meshDetails)
        ++ OptimizationEngine.fragIssues d
        ++ OptimizationEngine.texIssues d
        ++ OptimizationEngine.densityIssues d.meshDetails
        ++ OptimizationEngine.lodIssues d.meshDetails := rfl

theorem overkillUuids_append_fresh (ds₁ ds₂ : List MeshDetail) (t : TexEntry)
    (h : ∀ d ∈ ds₂, d.uuid ∉ t.affectedUuids) :
    OptimizationEngine.overkillUuids (ds₁ ++ ds₂) t =
      OptimizationEngine.overkillUuids ds₁ t := by
  unfold OptimizationEngine.overkillUuids
  rw [List.filter_append]
  have hnil : ds₂.filter (fun m =>
      decide (m.uuid ∈ t.affectedUuids) &&
      decide (m.volume < (1 : ℚ) / 10) &&
      decide (4096 * 4096 ≤ OptimizationEngine.texArea t)) = [] := by
    rw [List.filter_eq_nil_iff]
    intro d hd
    simp [h d hd]
  rw [hnil, List.append_nil]

theorem texIssue_congr (ds ds' : List MeshDetail) (t : TexEntry)
    (h : OptimizationEngine.overkillUuids ds' t = OptimizationEngine.overkillUuids ds t) :
    OptimizationEngine.texIssue ds' t = OptimizationEngine.texIssue ds t := by
  unfold OptimizationEngine.texIssue
  rw [h]

theorem highDensity_append_fresh (ds₁ ds₂ : List MeshDetail)
    (h : ∀ d ∈ ds₂, OptimizationEngine.densityTrigger d = false) :
    OptimizationEngine.highDensityMeshes (ds₁ ++ ds₂) =
      OptimizationEngine.highDensityMeshes ds₁ := by
  unfold OptimizationEngine.highDensityMeshes
  rw [List.filter_append]
  have hnil : ds₂.filter OptimizationEngine.densityTrigger = [] :=
    List.filter_eq_nil_iff.2 (fun d hd => by simp [h d hd])
  rw [hnil, List.append_nil]

/-! ## Claim C5 -/

/-- C5: adding one duplicate-geometry group of k ≥ 2 fresh static leaf
meshes — all sharing one (fresh-keyed) geometry and one material with no
texture maps and a small vertex count — to a scene that triggers no
detection rule, such that the combined scene still triggers no other
scoring rule (no material fragmentation, and the fresh meshes referenced
by no texture and below the density thresholds), lowers the analysis
score from 100 by exactly min(10, 2k). -/
theorem c5_duplicate_group_score_delta (base : SceneNode) (us : List String)
    (g : Geometry) (m : Material) (k : Nat)
    (hk : us.length = k) (hk2 : 2 ≤ k)
    (hm : ∀ o ∈ m.mapSlots, o = none)
    (hclean : (analysisPass base).issues = [])
    (hfreshkey : (OptimizationEngine.instancingGroups
        (SceneAnalyzer.analyze base).meshDetails).lookup (g.uuid ++ "_" ++ m.uuid) = none)
    (hfreshtex : ∀ t ∈ (SceneAnalyzer.analyze base).textures,
      ∀ u ∈ us, u ∉ t.affectedUuids)
    (hsmall : g.positionCount ≤ 5000)
    (hfrag : ¬ OptimizationEngine.fragCond
      (SceneAnalyzer.analyze (addGroup base us g m))) :
    (analysisPass base).score = 100 ∧
      (analysisPass (addGroup base us g m)).score = 100 - min 10 (2 * (k : ℤ)) := by
  obtain ⟨htex, hdet⟩ := analyze_addGroup base us g m hm
  rw [analysisPass, evaluate_issues_eq] at hclean
  rw [List.append_eq_nil, List.append_eq_nil, List.append_eq_nil,
    List.append_eq_nil, List.append_eq_nil] at hclean
  obtain ⟨⟨⟨⟨⟨hi1, hi2⟩, hi3⟩, hi4⟩, hi5⟩, hi6⟩ := hclean
  have hD1 : OptimizationEngine.instancingDeduction (OptimizationEngine.instancingGroups
      (SceneAnalyzer.analyze base).meshDetails) = 0 :=
    instancingIssues_nil_deduction _ hi1
  have hD2 : OptimizationEngine.fragDeduction (SceneAnalyzer.analyze base) = 0 :=
    fragIssues_nil_deduction _ hi3
  have hD3 : OptimizationEngine.texDeduction (SceneAnalyzer.analyze base) = 0 :=
    texIssues_nil_deduction _ hi4
  have hDens0 : OptimizationEngine.highDensityMeshes
      (SceneAnalyzer.analyze base).meshDetails = [] :=
    densityIssues_nil_empty _ hi5
  have hD4 : OptimizationEngine.densityDeduction
      (SceneAnalyzer.analyze base).meshDetails = 0 := by
    unfold OptimizationEngine.densityDeduction
    rw [if_neg (not_not_intro hDens0)]
  refine ⟨?_, ?_⟩
  · rw [analysisPass, evaluate_score_eq, hD1, hD2, hD3, hD4]
    rfl
  · rw [analysisPass, evaluate_score_eq]
    have hkeys : ∀ d ∈ us.map (fun u => detailOf ⟨u, g, m, false, false⟩),
        OptimizationEngine.instKey d = g.uuid ++ "_" ++ m.uuid ∧ d.isStatic = true := by
      intro d hd
      rcases List.mem_map.1 hd with ⟨u, hu, rfl⟩
      exact ⟨rfl, rfl⟩
    rcases instancingGroups_append_freshkey
        (SceneAnalyzer.analyze base).meshDetails _ _ hfreshkey hkeys with
      ⟨hnil, _⟩ | ⟨gr, hgroups, haff⟩
    · have : us.length = 0 := by simpa using congrArg List.length hnil
      omega
    · have hDinst : OptimizationEngine.instancingDeduction
          (OptimizationEngine.instancingGroups
            (SceneAnalyzer.analyze (addGroup base us g m)).meshDetails)
          = min 10 (2 * (k : ℤ)) := by
        rw [hdet, hgroups, instancingDeduction_append, hD1]
        have hlen : gr.affectedUuids.length = k := by
          rw [haff, List.length_map, List.length_map, hk]
        have hsingle : OptimizationEngine.instancingDeduction
            [(g.uuid ++ "_" ++ m.uuid, gr)] = OptimizationEngine.instGroupDeduction gr := by
          unfold OptimizationEngine.instancingDeduction
          simp
        rw [hsingle]
        unfold OptimizationEngine.instGroupDeduction
        rw [hlen, if_pos (by omega)]
        exact zero_add _
      have hDtex : OptimizationEngine.texDeduction
          (SceneAnalyzer.analyze (addGroup base us g m)) = 0 := by
        unfold OptimizationEngine.texDeduction OptimizationEngine.texIssues
        rw [htex, hdet]
        have hcongr : ∀ t ∈ (SceneAnalyzer.analyze base).textures,
            OptimizationEngine.texIssue ((SceneAnalyzer.analyze base).meshDetails ++
              us.map (fun u => detailOf ⟨u, g, m, false, false⟩)) t =
            OptimizationEngine.texIssue (SceneAnalyzer.analyze base).meshDetails t := by
          intro t ht
          refine texIssue_congr _ _ t (overkillUuids_append_fresh _ _ t ?_)
          intro d hd
          rcases List.mem_map.1 hd with ⟨u, hu, rfl⟩
          exact hfreshtex t ht u hu
        rw [List.filterMap_congr hcongr]
        have : (SceneAnalyzer.analyze base).textures.filterMap
            (OptimizationEngine.texIssue (SceneAnalyzer.analyze base).meshDetails) = [] := hi4
        rw [this]
        rfl
      have hDdens : OptimizationEngine.densityDeduction
          (SceneAnalyzer.analyze (addGroup base us g m)).meshDetails = 0 := by
        unfold OptimizationEngine.densityDeduction
        rw [hdet, highDensity_append_fresh _ _ ?hnew, hDens0]
        · rw [if_neg (not_not_intro rfl)]
        case hnew =>
          intro d hd
          rcases List.mem_map.1 hd with ⟨u, hu, rfl⟩
          unfold OptimizationEngine.densityTrigger
          have h2 : decide (5000 < (detailOf ⟨u, g, m, false, false⟩).vertexCount) = false :=
            decide_eq_false (by
              show ¬ 5000 < g.positionCount
              omega)
          rw [h2, Bool.and_false]
      have hDfrag : OptimizationEngine.fragDeduction
          (SceneAnalyzer.analyze (addGroup base us g m)) = 0 := by
        unfold OptimizationEngine.fragDeduction
        rw [if_neg hfrag]
      rw [hDinst, hDtex, hDdens, hDfrag]
      have h0 : (0 : ℤ) ≤ min 10 (2 * (k : ℤ)) :=
        le_min (by norm_num) (by positivity)
      have h10 : min 10 (2 * (k : ℤ)) ≤ 10 := min_le_left _ _
      omega

theorem c5_duplicate_group_score_delta_witness :
    (analysisPass exSceneEmpty).score = 100 ∧
      (analysisPass (addGroup exSceneEmpty ["u1", "u2"] exG exM)).score =
        100 - min 10 (2 * ((2 : Nat) : ℤ)) :=
  c5_duplicate_group_score_delta exSceneEmpty ["u1", "u2"] exG exM 2
    rfl (by omega) (by decide) (by with_unfolding_all decide) (by decide)
    (by intro t ht u hu; cases ht) (by decide)
    (by with_unfolding_all decide)

/-! ## Scene-graph mutation facts -/

theorem lookup_setKey_self {α : Type} (k : String) (v : α) (l : List (String × α)) :
    (setKey k v l).lookup k = some v := by
  induction l with
  | nil =>
    show List.lookup k [(k, v)] = some v
    rw [List.lookup_cons]
    simp
  | cons na t ih =>
    obtain ⟨k', v'⟩ := na
    unfold setKey
    by_cases hk : k' = k
    · rw [if_pos hk, List.lookup_cons]
      simp
    · rw [if_neg hk, List.lookup_cons]
      have hbeq : (k == k') = false := by
        cases hb : k == k' with
        | false => rfl
        | true => exact absurd (eq_of_beq hb).symm hk
      rw [hbeq]
      exact ih

theorem lookup_setKey_ne {α : Type} (k : String) (v : α) (l : List (String × α))
    (k' : String) (h : k' ≠ k) : (setKey k v l).lookup k' = l.lookup k' := by
  induction l with
  | nil =>
    show List.lookup k' [(k, v)] = none
    rw [List.lookup_cons]
    have hbeq : (k' == k) = false := by
      cases hb : k' == k with
      | false => rfl
      | true => exact absurd (eq_of_beq hb) h
    rw [hbeq]
    rfl
  | cons na t ih =>
    obtain ⟨k0, v0⟩ := na
    unfold setKey
    by_cases hk : k0 = k
    · rw [if_pos hk, List.lookup_cons, List.lookup_cons, hk]
      have hbeq : (k' == k) = false := by
        cases hb : k' == k with
        | false => rfl
        | true => exact absurd (eq_of_beq hb) h
      rw [hbeq]
    · rw [if_neg hk, List.lookup_cons, List.lookup_cons]
      cases hb : k' == k0 with
      | false => exact ih
      | true => rfl

theorem traverseCoresF_push (cs : SceneForest) (n : SceneNode) :
    traverseCoresF (cs.push n) = traverseCoresF cs ++ traverseCores n := by
  induction cs using SceneForest.rec (motive_1 := fun _ => True) with
  | node => trivial
  | nil => simp [SceneForest.push, traverseCoresF]
  | cons t ts ih1 ih2 =>
    show traverseCores t ++ traverseCoresF (ts.push n) =
      (traverseCores t ++ traverseCoresF ts) ++ traverseCores n
    rw [ih2, List.append_assoc]

theorem attachF_not_mem (pU : String) (n : SceneNode) :
    ∀ cs : SceneForest, pU ∉ (traverseCoresF cs).map NodeCore.uuid →
      attachChildF pU n cs = cs := by
  intro cs
  induction cs using SceneForest.rec
    (motive_1 := fun t => pU ∉ (traverseCores t).map NodeCore.uuid →
      attachChild pU n t = t) with
  | node c cs ih =>
    rename_i hmem
    have hmem' : pU ∉ NodeCore.uuid c :: (traverseCoresF cs).map NodeCore.uuid := hmem
    rw [List.mem_cons, not_or] at hmem'
    unfold attachChild
    rw [if_neg (fun h => hmem'.1 h.symm), ih hmem'.2]
  | nil => intro _; rfl
  | cons t ts ih1 ih2 =>
    intro hmem
    have hmem' : pU ∉ ((traverseCores t).map NodeCore.uuid ++
        (traverseCoresF ts).map NodeCore.uuid) := by
      intro h
      exact hmem (by
        show pU ∈ (traverseCores t ++ traverseCoresF ts).map NodeCore.uuid
        rw [List.map_append]
        exact h)
    rw [List.mem_append, not_or] at hmem'
    show SceneForest.cons (attachChild pU n t) (attachChildF pU n ts) = .cons t ts
    rw [ih1 hmem'.1, ih2 hmem'.2]

theorem attach_not_mem (pU : String) (n : SceneNode) (t : SceneNode)
    (h : pU ∉ (traverseCores t).map NodeCore.uuid) : attachChild pU n t = t := by
  obtain ⟨c, cs⟩ := t
  have h' : pU ∉ NodeCore.uuid c :: (traverseCoresF cs).map NodeCore.uuid := h
  rw [List.mem_cons, not_or] at h'
  unfold attachChild
  rw [if_neg (fun hh => h'.1 hh.symm), attachF_not_mem pU n cs h'.2]

theorem rootUuid_attach (pU : String) (n : SceneNode) (t : SceneNode) :
    rootUuid (attachChild pU n t) = rootUuid t := by
  obtain ⟨c, cs⟩ := t
  unfold attachChild
  by_cases hc : c.uuid = pU
  · rw [if_pos hc]
    rfl
  · rw [if_neg hc]
    rfl

theorem traverse_attachF_perm (pU : String) (n : SceneNode) :
    ∀ cs : SceneForest, ((traverseCoresF cs).map NodeCore.uuid).Nodup →
      pU ∈ (traverseCoresF cs).map NodeCore.uuid →
      List.Perm (traverseCoresF (attachChildF pU n cs))
        (traverseCoresF cs ++ traverseCores n) := by
  intro cs
  induction cs using SceneForest.rec
    (motive_1 := fun t => ((traverseCores t).map NodeCore.uuid).Nodup →
      pU ∈ (traverseCores t).map NodeCore.uuid →
      List.Perm (traverseCores (attachChild pU n t))
        (traverseCores t ++ traverseCores n)) with
  | node c cs ih =>
    rename_i hnd hmem
    by_cases hc : c.uuid = pU
    · rw [show attachChild pU n (.node c cs) = .node c (cs.push n) from by
        unfold attachChild; rw [if_pos hc]]
      show List.Perm (c :: traverseCoresF (cs.push n))
        ((c :: traverseCoresF cs) ++ traverseCores n)
      rw [traverseCoresF_push]
      exact List.Perm.refl _
    · rw [show attachChild pU n (.node c cs) = .node c (attachChildF pU n cs) from by
        unfold attachChild; rw [if_neg hc]]
      have hmem' : pU ∈ (traverseCoresF cs).map NodeCore.uuid := by
        rcases List.mem_cons.1 (show pU ∈ NodeCore.uuid c ::
            (traverseCoresF cs).map NodeCore.uuid from hmem) with h | h
        · exact absurd h.symm hc
        · exact h
      have hnd' : ((traverseCoresF cs).map NodeCore.uuid).Nodup :=
        (List.nodup_cons.1 (show (NodeCore.uuid c ::
          (traverseCoresF cs).map NodeCore.uuid).Nodup from hnd)).2
      exact List.Perm.cons c (ih hnd' hmem')
  | nil =>
    intro _ hmem
    simp [traverseCoresF] at hmem
  | cons t ts ih1 ih2 =>
    intro hnd hmem
    have hnd' : ((traverseCores t).map NodeCore.uuid ++
        (traverseCoresF ts).map NodeCore.uuid).Nodup := by
      rw [← List.map_append]
      exact hnd
    rw [List.nodup_append] at hnd'
    have hmem' : pU ∈ (traverseCores t).map NodeCore.uuid ++
        (traverseCoresF ts).map NodeCore.uuid := by
      rw [← List.map_append]
      exact hmem
    show List.Perm (traverseCores (attachChild pU n t) ++
      traverseCoresF (attachChildF pU n ts))
      ((traverseCores t ++ traverseCoresF ts) ++ traverseCores n)
    rcases List.mem_append.1 hmem' with h1 | h2
    · have hts : attachChildF pU n ts = ts :=
        attachF_not_mem pU n ts (fun h => hnd'.2.2 h1 h)
      rw [hts]
      refine List.Perm.trans (List.Perm.append_right _ (ih1 hnd'.1 h1)) ?_
      rw [List.append_assoc, List.append_assoc]
      exact List.Perm.append_left _ List.perm_append_comm
    · have ht : attachChild pU n t = t :=
        attach_not_mem pU n t (fun h => hnd'.2.2 h h2)
      rw [ht, List.append_assoc]
      exact List.Perm.append_left _ (ih2 hnd'.2.1 h2)

theorem traverse_attach_perm (pU : String) (n : SceneNode) (t : SceneNode)
    (hnd : ((traverseCores t).map NodeCore.uuid).Nodup)
    (hmem : pU ∈ (traverseCores t).map NodeCore.uuid) :
    List.Perm (traverseCores (attachChild pU n t))
      (traverseCores t ++ traverseCores n) := by
  obtain ⟨c, cs⟩ := t
  by_cases hc : c.uuid = pU
  · rw [show attachChild pU n (.node c cs) = .node c (cs.push n) from by
      unfold attachChild; rw [if_pos hc]]
    show List.Perm (c :: traverseCoresF (cs.push n))
      ((c :: traverseCoresF cs) ++ traverseCores n)
    rw [traverseCoresF_push]
    exact List.Perm.refl _
  · rw [show attachChild pU n (.node c cs) = .node c (attachChildF pU n cs) from by
      unfold attachChild; rw [if_neg hc]]
    have hmem' : pU ∈ (traverseCoresF cs).map NodeCore.uuid := by
      rcases List.mem_cons.1 (show pU ∈ NodeCore.uuid c ::
          (traverseCoresF cs).map NodeCore.uuid from hmem) with h | h
      · exact absurd h.symm hc
      · exact h
    have hnd' : ((traverseCoresF cs).map NodeCore.uuid).Nodup :=
      (List.nodup_cons.1 (show (NodeCore.uuid c ::
        (traverseCoresF cs).map NodeCore.uuid).Nodup from hnd)).2
    exact List.Perm.cons c (traverse_attachF_perm pU n cs hnd' hmem')

/-! ## Subtree lookup and detach facts -/

theorem rootUuid_mem (t : SceneNode) :
    rootUuid t ∈ (traverseCores t).map NodeCore.uuid := by
  obtain ⟨c, cs⟩ := t
  exact List.mem_cons.2 (Or.inl rfl)

theorem subtreeOfF_some_mem (u : String) :
    ∀ cs : SceneForest, ∀ s : SceneNode, subtreeOfF u cs = some s →
      u ∈ (traverseCoresF cs).map NodeCore.uuid := by
  intro cs
  induction cs using SceneForest.rec
    (motive_1 := fun t => ∀ s : SceneNode, subtreeOf u t = some s →
      u ∈ (traverseCores t).map NodeCore.uuid) with
  | node c cs ih =>
    rename_i s hs
    by_cases hc : c.uuid = u
    · exact List.mem_cons.2 (Or.inl hc.symm)
    · simp only [subtreeOf, if_neg hc] at hs
      exact List.mem_cons.2 (Or.inr (ih s hs))
  | nil =>
    intro s hs
    simp [subtreeOfF] at hs
  | cons t ts ih1 ih2 =>
    intro s hs
    show u ∈ (traverseCores t ++ traverseCoresF ts).map NodeCore.uuid
    rw [List.map_append]
    cases hst : subtreeOf u t with
    | some r => exact List.mem_append.2 (Or.inl (ih1 r hst))
    | none =>
      simp only [subtreeOfF, hst] at hs
      exact List.mem_append.2 (Or.inr (ih2 s hs))

theorem subtreeOf_some_mem (u : String) (t : SceneNode) (s : SceneNode)
    (hs : subtreeOf u t = some s) : u ∈ (traverseCores t).map NodeCore.uuid := by
  obtain ⟨c, cs⟩ := t
  by_cases hc : c.uuid = u
  · exact List.mem_cons.2 (Or.inl hc.symm)
  · simp only [subtreeOf, if_neg hc] at hs
    exact List.mem_cons.2 (Or.inr (subtreeOfF_some_mem u cs s hs))

theorem subtreeOfF_isSome_of_mem (u : String) :
    ∀ cs : SceneForest, u ∈ (traverseCoresF cs).map NodeCore.uuid →
      (subtreeOfF u cs).isSome := by
  intro cs
  induction cs using SceneForest.rec
    (motive_1 := fun t => u ∈ (traverseCores t).map NodeCore.uuid →
      (subtreeOf u t).isSome) with
  | node c cs ih =>
    rename_i hmem
    by_cases hc : c.uuid = u
    · simp [subtreeOf, hc]
    · have hmem' : u ∈ (traverseCoresF cs).map NodeCore.uuid := by
        rcases List.mem_cons.1 (show u ∈ NodeCore.uuid c ::
            (traverseCoresF cs).map NodeCore.uuid from hmem) with h | h
        · exact absurd h.symm hc
        · exact h
      simp only [subtreeOf, if_neg hc]
      exact ih hmem'
  | nil =>
    intro h
    simp [traverseCoresF] at h
  | cons t ts ih1 ih2 =>
    intro hmem
    have hmem' : u ∈ (traverseCores t).map NodeCore.uuid ++
        (traverseCoresF ts).map NodeCore.uuid := by
      rw [← List.map_append]
      exact hmem
    cases hst : subtreeOf u t with
    | some r => simp [subtreeOfF, hst]
    | none =>
      simp only [subtreeOfF, hst]
      rcases List.mem_append.1 hmem' with h | h
      · have := ih1 h
        rw [hst] at this
        simp at this
      · exact ih2 h

theorem subtreeOf_isSome_of_mem (u : String) (t : SceneNode)
    (h : u ∈ (traverseCores t).map NodeCore.uuid) : (subtreeOf u t).isSome := by
  obtain ⟨c, cs⟩ := t
  by_cases hc : c.uuid = u
  · simp [subtreeOf, hc]
  · have h' : u ∈ (traverseCoresF cs).map NodeCore.uuid := by
      rcases List.mem_cons.1 (show u ∈ NodeCore.uuid c ::
          (traverseCoresF cs).map NodeCore.uuid from h) with h0 | h0
      · exact absurd h0.symm hc
      · exact h0
    simp only [subtreeOf, if_neg hc]
    exact subtreeOfF_isSome_of_mem u cs h'

theorem detachF_not_mem (u : String) :
    ∀ cs : SceneForest, u ∉ (traverseCoresF cs).map NodeCore.uuid →
      detachNodeF u cs = cs := by
  intro cs
  induction cs using SceneForest.rec
    (motive_1 := fun t => u ∉ (traverseCores t).map NodeCore.uuid →
      detachNode u t = t) with
  | node c cs ih =>
    rename_i hmem
    have hmem' : u ∉ (traverseCoresF cs).map NodeCore.uuid := fun h =>
      hmem (List.mem_cons.2 (Or.inr h))
    show SceneNode.node c (detachNodeF u cs) = .node c cs
    rw [ih hmem']
  | nil => intro _; rfl
  | cons t ts ih1 ih2 =>
    intro hmem
    have h1 : u ∉ (traverseCores t).map NodeCore.uuid := fun h => hmem (by
      show u ∈ (traverseCores t ++ traverseCoresF ts).map NodeCore.uuid
      rw [List.map_append]
      exact List.mem_append.2 (Or.inl h))
    have h2 : u ∉ (traverseCoresF ts).map NodeCore.uuid := fun h => hmem (by
      show u ∈ (traverseCores t ++ traverseCoresF ts).map NodeCore.uuid
      rw [List.map_append]
      exact List.mem_append.2 (Or.inr h))
    have hrt : rootUuid t ≠ u := fun h => h1 (h ▸ rootUuid_mem t)
    show (if rootUuid t = u then detachNodeF u ts
      else .cons (detachNode u t) (detachNodeF u ts)) = .cons t ts
    rw [if_neg hrt, ih1 h1, ih2 h2]

theorem detach_not_mem (u : String) (t : SceneNode)
    (h : u ∉ (traverseCores t).map NodeCore.uuid) : detachNode u t = t := by
  obtain ⟨c, cs⟩ := t
  have h' : u ∉ (traverseCoresF cs).map NodeCore.uuid := fun hh =>
    h (List.mem_cons.2 (Or.inr hh))
  show SceneNode.node c (detachNodeF u cs) = .node c cs
  rw [detachF_not_mem u cs h']

theorem subtreeOfF_cores_subset (u : String) :
    ∀ cs : SceneForest, ∀ s : SceneNode, subtreeOfF u cs = some s →
      traverseCores s ⊆ traverseCoresF cs := by
  intro cs
  induction cs using SceneForest.rec
    (motive_1 := fun t => ∀ s : SceneNode, subtreeOf u t = some s →
      traverseCores s ⊆ traverseCores t) with
  | node c cs ih =>
    rename_i s hs
    by_cases hc : c.uuid = u
    · simp only [subtreeOf, if_pos hc, Option.some.injEq] at hs
      rw [← hs]
      exact fun x hx => hx
    · simp only [subtreeOf, if_neg hc] at hs
      exact fun x hx => List.mem_cons.2 (Or.inr (ih s hs hx))
  | nil =>
    intro s hs
    simp [subtreeOfF] at hs
  | cons t ts ih1 ih2 =>
    intro s hs
    cases hst : subtreeOf u t with
    | some r =>
      have hrs : subtreeOf u t = some s := by
        have : r = s := by
          simp [subtreeOfF, hst] at hs
          exact hs
        rw [hst, this]
      intro x hx
      show x ∈ traverseCores t ++ traverseCoresF ts
      exact List.mem_append.2 (Or.inl (ih1 s hrs hx))
    | none =>
      simp only [subtreeOfF, hst] at hs
      intro x hx
      show x ∈ traverseCores t ++ traverseCoresF ts
      exact List.mem_append.2 (Or.inr (ih2 s hs hx))

theorem subtreeOf_cores_subset (u : String) (t s : SceneNode)
    (hs : subtreeOf u t = some s) : traverseCores s ⊆ traverseCores t := by
  obtain ⟨c, cs⟩ := t
  by_cases hc : c.uuid = u
  · simp only [subtreeOf, if_pos hc, Option.some.injEq] at hs
    rw [← hs]
    exact fun x hx => hx
  · simp only [subtreeOf, if_neg hc] at hs
    exact fun x hx => List.mem_cons.2 (Or.inr (subtreeOfF_cores_subset u cs s hs hx))

theorem subtreeOfF_push_none (u : String) (n : SceneNode)
    (hn : subtreeOf u n = none) :
    ∀ cs : SceneForest, subtreeOfF u (cs.push n) = subtreeOfF u cs := by
  intro cs
  induction cs using SceneForest.rec (motive_1 := fun _ => True) with
  | node c cs ih => trivial
  | nil =>
    show subtreeOfF u (.cons n .nil) = none
    simp [subtreeOfF, hn]
  | cons t ts ih1 ih2 =>
    show subtreeOfF u (.cons t (ts.push n)) = subtreeOfF u (.cons t ts)
    cases hst : subtreeOf u t with
    | some r => simp [subtreeOfF, hst]
    | none =>
      simp only [subtreeOfF, hst]
      exact ih2

theorem subtreeOf_attach (u pU : String) (n : SceneNode) (hne : u ≠ pU)
    (hn : subtreeOf u n = none) :
    ∀ t : SceneNode, ((traverseCores t).map NodeCore.uuid).Nodup →
      subtreeOf u (attachChild pU n t) = (subtreeOf u t).map (attachChild pU n) := by
  intro t
  induction t using SceneNode.rec
    (motive_2 := fun cs => ((traverseCoresF cs).map NodeCore.uuid).Nodup →
      subtreeOfF u (attachChildF pU n cs) =
        (subtreeOfF u cs).map (attachChild pU n)) with
  | node c cs ih =>
    intro hnd
    by_cases hp : c.uuid = pU
    · have hcu : c.uuid ≠ u := fun h => hne (by rw [← h, hp])
      rw [show attachChild pU n (.node c cs) = .node c (cs.push n) from by
        unfold attachChild; rw [if_pos hp]]
      simp only [subtreeOf, if_neg hcu]
      rw [subtreeOfF_push_none u n hn cs]
      cases hst : subtreeOfF u cs with
      | none => rfl
      | some s =>
        have hsub : traverseCores s ⊆ traverseCoresF cs :=
          subtreeOfF_cores_subset u cs s hst
        have hpn : pU ∉ (traverseCores s).map NodeCore.uuid := by
          intro hmem
          have hmem' : pU ∈ (traverseCoresF cs).map NodeCore.uuid :=
            List.map_subset NodeCore.uuid hsub hmem
          have hnd' := List.nodup_cons.1 (show (NodeCore.uuid c ::
            (traverseCoresF cs).map NodeCore.uuid).Nodup from hnd)
          exact hnd'.1 (by rw [hp]; exact hmem')
        rw [show (some s).map (attachChild pU n) = some (attachChild pU n s) from rfl,
          attach_not_mem pU n s hpn]
    · have step : attachChild pU n (.node c cs) = .node c (attachChildF pU n cs) := by
        unfold attachChild
        rw [if_neg hp]
      rw [step]
      by_cases hcu : c.uuid = u
      · simp only [subtreeOf, if_pos hcu]
        exact (congrArg some step).symm
      · simp only [subtreeOf, if_neg hcu]
        have hnd' := (List.nodup_cons.1 (show (NodeCore.uuid c ::
          (traverseCoresF cs).map NodeCore.uuid).Nodup from hnd)).2
        exact ih hnd'
  | nil =>
    rename_i hnd
    rfl
  | cons t ts ih1 ih2 =>
    rename_i hnd
    have hnd2 : ((traverseCores t).map NodeCore.uuid ++
        (traverseCoresF ts).map NodeCore.uuid).Nodup := by
      rw [← List.map_append]
      exact hnd
    rw [List.nodup_append] at hnd2
    show subtreeOfF u (.cons (attachChild pU n t) (attachChildF pU n ts)) = _
    cases hst : subtreeOf u t with
    | some s =>
      have h1 : subtreeOf u (attachChild pU n t) = some (attachChild pU n s) := by
        rw [ih1 hnd2.1, hst]
        rfl
      simp [subtreeOfF, h1, hst]
    | none =>
      have h1 : subtreeOf u (attachChild pU n t) = none := by
        rw [ih1 hnd2.1, hst]
        rfl
      simp only [subtreeOfF, h1, hst]
      exact ih2 hnd2.2.1

theorem traverse_detach_perm (u : String) :
    ∀ t : SceneNode, ∀ s : SceneNode,
      ((traverseCores t).map NodeCore.uuid).Nodup →
      rootUuid t ≠ u → subtreeOf u t = some s →
      List.Perm (traverseCores (detachNode u t) ++ traverseCores s)
        (traverseCores t) := by
  intro t
  induction t using SceneNode.rec
    (motive_2 := fun cs => ∀ s : SceneNode,
      ((traverseCoresF cs).map NodeCore.uuid).Nodup →
      subtreeOfF u cs = some s →
      List.Perm (traverseCoresF (detachNodeF u cs) ++ traverseCores s)
        (traverseCoresF cs)) with
  | node c cs ih =>
    intro s hnd hroot hsub
    have hc : c.uuid ≠ u := hroot
    simp only [subtreeOf, if_neg hc] at hsub
    have hnd' : ((traverseCoresF cs).map NodeCore.uuid).Nodup :=
      (List.nodup_cons.1 (show (NodeCore.uuid c ::
        (traverseCoresF cs).map NodeCore.uuid).Nodup from hnd)).2
    show List.Perm ((c :: traverseCoresF (detachNodeF u cs)) ++ traverseCores s)
      (c :: traverseCoresF cs)
    exact List.Perm.cons c (ih s hnd' hsub)
  | nil =>
    rename_i s hnd hsub
    simp [subtreeOfF] at hsub
  | cons t ts ih1 ih2 =>
    rename_i s hnd hsub
    have hnd2 : ((traverseCores t).map NodeCore.uuid ++
        (traverseCoresF ts).map NodeCore.uuid).Nodup := by
      rw [← List.map_append]
      exact hnd
    rw [List.nodup_append] at hnd2
    cases hst : subtreeOf u t with
    | some r =>
      have hrs : r = s := by
        simp [subtreeOfF, hst] at hsub
        exact hsub
      have hst' : subtreeOf u t = some s := by rw [hst, hrs]
      have hut : u ∈ (traverseCores t).map NodeCore.uuid :=
        subtreeOf_some_mem u t r hst
      have huts : u ∉ (traverseCoresF ts).map NodeCore.uuid := fun h =>
        hnd2.2.2 hut h
      have hts : detachNodeF u ts = ts := detachF_not_mem u ts huts
      by_cases hrt : rootUuid t = u
      · have htr : t = s := by
          obtain ⟨c0, cs0⟩ := t
          have hc0 : c0.uuid = u := hrt
          simp only [subtreeOf, if_pos hc0, Option.some.injEq] at hst
          rw [hst, hrs]
        have hstep : detachNodeF u (.cons t ts) = ts := by
          show (if rootUuid t = u then detachNodeF u ts
            else .cons (detachNode u t) (detachNodeF u ts)) = ts
          rw [if_pos hrt, hts]
        rw [hstep]
        show List.Perm (traverseCoresF ts ++ traverseCores s)
          (traverseCores t ++ traverseCoresF ts)
        rw [← htr]
        exact List.perm_append_comm
      · have hstep : detachNodeF u (.cons t ts) = .cons (detachNode u t) ts := by
          show (if rootUuid t = u then detachNodeF u ts
            else .cons (detachNode u t) (detachNodeF u ts)) = _
          rw [if_neg hrt, hts]
        rw [hstep]
        show List.Perm ((traverseCores (detachNode u t) ++ traverseCoresF ts)
            ++ traverseCores s)
          (traverseCores t ++ traverseCoresF ts)
        rw [List.append_assoc]
        refine List.Perm.trans (List.Perm.append_left _ List.perm_append_comm) ?_
        rw [← List.append_assoc]
        exact List.Perm.append_right _ (ih1 s hnd2.1 hrt hst')
    | none =>
      simp only [subtreeOfF, hst] at hsub
      have hut : u ∉ (traverseCores t).map NodeCore.uuid := by
        intro h
        have hsome := subtreeOf_isSome_of_mem u t h
        rw [hst] at hsome
        simp at hsome
      have ht : detachNode u t = t := detach_not_mem u t hut
      have hrt : rootUuid t ≠ u := fun h => hut (h ▸ rootUuid_mem t)
      have hstep : detachNodeF u (.cons t ts) = .cons t (detachNodeF u ts) := by
        show (if rootUuid t = u then detachNodeF u ts
          else .cons (detachNode u t) (detachNodeF u ts)) = _
        rw [if_neg hrt, ht]
      rw [hstep]
      show List.Perm ((traverseCores t ++ traverseCoresF (detachNodeF u ts))
          ++ traverseCores s)
        (traverseCores t ++ traverseCoresF ts)
      rw [List.append_assoc]
      exact List.Perm.append_left _ (ih2 s hnd2.2.1 hsub)

/-! ## Geometry-count and mesh-detail characterizations of the analyzer -/

theorem geomCountOf_visitNode (d : RawSceneData) (c : NodeCore) (gU : String) :
    geomCountOf (visitNode d c) gU =
      geomCountOf d gU + (if usesGeom gU c then 1 else 0) := by
  cases hac : activeMesh c with
  | none =>
    simp [visitNode, usesGeom, hac]
  | some r =>
    by_cases hg : r.geom.uuid = gU
    · have huse : usesGeom gU c = true := by
        simp [usesGeom, hac, hg]
      rw [huse]
      simp only [visitNode, hac, visitMesh, geomCountOf, if_true]
      rw [hg, lookup_setKey_self]
      cases hl : d.geometries.lookup gU with
      | none => simp [hl]
      | some e => simp [hl]
    · have huse : usesGeom gU c = false := by
        simp [usesGeom, hac, hg]
      rw [huse]
      simp only [visitNode, hac, visitMesh, geomCountOf, Bool.false_eq_true,
        if_false]
      rw [lookup_setKey_ne _ _ _ _ (fun h => hg h.symm), Nat.add_zero]

theorem geomCountOf_foldl (gU : String) :
    ∀ (l : List NodeCore) (d : RawSceneData),
      geomCountOf (l.foldl visitNode d) gU =
        geomCountOf d gU + l.countP (usesGeom gU) := by
  intro l
  induction l with
  | nil => intro d; simp
  | cons c l ih =>
    intro d
    rw [List.foldl_cons, ih, geomCountOf_visitNode, List.countP_cons]
    omega

theorem geomCountOf_analyze (s : SceneNode) (gU : String) :
    geomCountOf (SceneAnalyzer.analyze s) gU =
      (traverseCores s).countP (usesGeom gU) := by
  simp only [SceneAnalyzer.analyze]
  rw [geomCountOf_foldl]
  simp [geomCountOf, emptyData]

theorem meshDetails_visitNode (d : RawSceneData) (c : NodeCore) :
    (visitNode d c).meshDetails =
      d.meshDetails ++ ((activeMesh c).map detailOf).toList := by
  cases hac : activeMesh c with
  | none => simp [visitNode, hac]
  | some r => simp [visitNode, hac, visitMesh]

theorem meshDetails_foldl :
    ∀ (l : List NodeCore) (d : RawSceneData),
      (l.foldl visitNode d).meshDetails =
        d.meshDetails ++ (l.filterMap activeMesh).map detailOf := by
  intro l
  induction l with
  | nil => intro d; simp
  | cons c l ih =>
    intro d
    rw [List.foldl_cons, ih, meshDetails_visitNode]
    cases hac : activeMesh c with
    | none => simp [hac]
    | some r => simp [hac]

theorem meshDetails_analyze (s : SceneNode) :
    (SceneAnalyzer.analyze s).meshDetails =
      ((traverseCores s).filterMap activeMesh).map detailOf := by
  simp only [SceneAnalyzer.analyze]
  rw [meshDetails_foldl]
  simp [emptyData]

/-! ## Claim C9 -/

/-- C9: after a successful `generateLOD` call — the uuid resolves to an
untagged leaf mesh that has a parent — the returned LOD container carries
the `lod` provenance tag while its three cloned level meshes are
untagged; re-running the analyzer on the mutated scene therefore still
extracts mesh facts for all three clones, and (when the target was the
only user of its geometry) the geometry catalog now counts that geometry
exactly three times, so the duplicated geometry is visible to the next
pass again. -/
theorem c9_lod_clones_reanalyzed
    (base : SceneNode) (u lU pU : String) (pW : Mat4)
    (f1 f2 f3 : String → String) (target : MeshHit) (tc : NodeCore)
    (g : Geometry) (m : Material) (sk mo : Bool)
    (hnd : (sceneUuids base).Nodup)
    (hres : (collectMeshes base [u]).getLast? = some target)
    (hcore : target.core = tc)
    (htree : target.tree = .node tc .nil)
    (hpar : target.parent = some (pU, pW))
    (htag : tc.tag = none)
    (hkind : tc.kind = .mesh g m sk mo)
    (hpU : pU ∈ sceneUuids base)
    (hpne : u ≠ pU)
    (hroot : rootUuid base ≠ u)
    (hsub : subtreeOf u base = some (.node tc .nil))
    (hfresh : ∀ x ∈ [lU, f1 u, f2 (f1 u), f3 (f1 u)], x ∉ sceneUuids base)
    (hfnd : [lU, f1 u, f2 (f1 u), f3 (f1 u)].Nodup)
    (hcount : (traverseCores base).countP (usesGeom g.uuid) = 1) :
    (((LODEngine.runLOD base u lU f1 f2 f3).1).map
        (fun l => (l.core.tag, l.children.toList.map (fun ch => ch.core.tag)))
      = some (some ⟨"lod", none⟩, [none, none, none]))
    ∧ [f1 u, f2 (f1 u), f3 (f1 u)] ⊆
        (SceneAnalyzer.analyze
          (LODEngine.runLOD base u lU f1 f2 f3).2).meshDetails.map MeshDetail.uuid
    ∧ geomCountOf
        (SceneAnalyzer.analyze (LODEngine.runLOD base u lU f1 f2 f3).2) g.uuid
      = 3 := by
  have htmem : target ∈ collectMeshes base [u] := by
    rcases List.mem_getLast?_eq_getLast
      (show target ∈ (collectMeshes base [u]).getLast? from hres) with ⟨hne0, heq⟩
    rw [heq]
    exact List.getLast_mem hne0
  have hcu : tc.uuid = u := by
    have h0 := collectMeshes_uuid_mem base [u] target htmem
    rw [hcore] at h0
    simpa using h0
  have hhd : setIdentityLocal (cloneTree f1 target.tree) =
      .node ⟨f1 u, 1, tc.tag, tc.kind⟩ .nil := by
    rw [htree, ← hcu]
    rfl
  have hmd : cloneTree f2 (SceneNode.node ⟨f1 u, 1, tc.tag, tc.kind⟩ .nil) =
      .node ⟨f2 (f1 u), 1, tc.tag, tc.kind⟩ .nil := rfl
  have hld : cloneTree f3 (SceneNode.node ⟨f1 u, 1, tc.tag, tc.kind⟩ .nil) =
      .node ⟨f3 (f1 u), 1, tc.tag, tc.kind⟩ .nil := rfl
  have hL := generateLOD_success base u lU f1 f2 f3 target pU pW hres hpar
  rw [hhd, hmd, hld, hcore, hcu] at hL
  set L : SceneNode := SceneNode.node
    ⟨lU, tc.localMatrix, some ⟨"lod", none⟩, .lodContainer [0, 15, 40]⟩
    (.cons (.node ⟨f1 u, 1, tc.tag, tc.kind⟩ .nil)
      (.cons (.node ⟨f2 (f1 u), 1, tc.tag, tc.kind⟩ .nil)
        (.cons (.node ⟨f3 (f1 u), 1, tc.tag, tc.kind⟩ .nil) .nil))) with hLdef
  have hfst : (LODEngine.runLOD base u lU f1 f2 f3).1 = some L := by
    unfold LODEngine.runLOD
    rw [hL]
  have hscene : (LODEngine.runLOD base u lU f1 f2 f3).2 =
      detachNode u (attachChild pU L base) := by
    unfold LODEngine.runLOD
    rw [hL]
    rfl
  have hLuu : (traverseCores L).map NodeCore.uuid =
      [lU, f1 u, f2 (f1 u), f3 (f1 u)] := rfl
  have hu_mem : u ∈ sceneUuids base := subtreeOf_some_mem u base (.node tc .nil) hsub
  have hnL : subtreeOf u L = none := by
    cases hx : subtreeOf u L with
    | none => rfl
    | some r =>
      have hmem := subtreeOf_some_mem u L r hx
      rw [hLuu] at hmem
      exact absurd hu_mem (hfresh u hmem)
  have hpermA := traverse_attach_perm pU L base hnd hpU
  have hndA : ((traverseCores (attachChild pU L base)).map NodeCore.uuid).Nodup := by
    rw [List.Perm.nodup_iff (hpermA.map NodeCore.uuid)]
    rw [List.map_append, List.nodup_append]
    refine ⟨hnd, ?_, ?_⟩
    · rw [hLuu]
      exact hfnd
    · intro a ha hb
      rw [hLuu] at hb
      exact hfresh a hb ha
  have hsubA : subtreeOf u (attachChild pU L base) = some (.node tc .nil) := by
    rw [subtreeOf_attach u pU L hpne hnL base hnd, hsub]
    show some (attachChild pU L (.node tc .nil)) = some (.node tc .nil)
    have hpn : pU ∉ (traverseCores (SceneNode.node tc .nil)).map NodeCore.uuid := by
      intro hmem
      have h1 : pU = tc.uuid := List.mem_singleton.1 (show pU ∈ [tc.uuid] from hmem)
      exact hpne ((h1.trans hcu).symm)
    rw [attach_not_mem pU L (.node tc .nil) hpn]
  have hrootA : rootUuid (attachChild pU L base) ≠ u := by
    rw [rootUuid_attach]
    exact hroot
  have hpermD := traverse_detach_perm u (attachChild pU L base) (.node tc .nil)
    hndA hrootA hsubA
  have hptc : usesGeom g.uuid tc = true := by
    simp [usesGeom, activeMesh, htag, hkind, NodeKind.meshParts]
  have hcnt_tc : (traverseCores (SceneNode.node tc .nil)).countP (usesGeom g.uuid)
      = 1 := by
    show List.countP (usesGeom g.uuid) [tc] = 1
    simp [List.countP_cons, hptc]
  have huseX : ∀ x : String,
      usesGeom g.uuid (⟨x, 1, tc.tag, tc.kind⟩ : NodeCore) = true := by
    intro x
    simp [usesGeom, activeMesh, htag, hkind, NodeKind.meshParts]
  have huseL : usesGeom g.uuid
      (⟨lU, tc.localMatrix, some ⟨"lod", none⟩, .lodContainer [0, 15, 40]⟩ :
        NodeCore) = false := by
    simp [usesGeom, activeMesh]
  have hcntL : (traverseCores L).countP (usesGeom g.uuid) = 3 := by
    show List.countP (usesGeom g.uuid)
      [⟨lU, tc.localMatrix, some ⟨"lod", none⟩, .lodContainer [0, 15, 40]⟩,
       ⟨f1 u, 1, tc.tag, tc.kind⟩, ⟨f2 (f1 u), 1, tc.tag, tc.kind⟩,
       ⟨f3 (f1 u), 1, tc.tag, tc.kind⟩] = 3
    simp [List.countP_cons, huseL, huseX]
  have hC : (traverseCores (detachNode u (attachChild pU L base))).countP
      (usesGeom g.uuid) = 3 := by
    have h1 := hpermD.countP_eq (usesGeom g.uuid)
    have h2 := hpermA.countP_eq (usesGeom g.uuid)
    rw [List.countP_append] at h1 h2
    rw [hcnt_tc] at h1
    rw [hcount, hcntL] at h2
    omega
  have hmemScene : ∀ c : NodeCore, c ∈ traverseCores L → c.uuid ≠ u →
      c ∈ traverseCores (detachNode u (attachChild pU L base)) := by
    intro c hcL hcne
    have h1 : c ∈ traverseCores (attachChild pU L base) :=
      hpermA.mem_iff.2 (List.mem_append.2 (Or.inr hcL))
    have h2 : c ∈ traverseCores (detachNode u (attachChild pU L base)) ++
        traverseCores (SceneNode.node tc .nil) := hpermD.mem_iff.2 h1
    rcases List.mem_append.1 h2 with h | h
    · exact h
    · have hct : c = tc := List.mem_singleton.1 (show c ∈ [tc] from h)
      exact absurd (by rw [hct, hcu]) hcne
  have hmk : ∀ x : String, x ≠ u →
      (⟨x, 1, tc.tag, tc.kind⟩ : NodeCore) ∈ traverseCores L →
      x ∈ (SceneAnalyzer.analyze
        (detachNode u (attachChild pU L base))).meshDetails.map MeshDetail.uuid := by
    intro x hxne hxL
    have hcmem := hmemScene _ hxL hxne
    have hact : activeMesh (⟨x, 1, tc.tag, tc.kind⟩ : NodeCore) =
        some ⟨x, g, m, sk, mo⟩ := by
      simp [activeMesh, htag, hkind, NodeKind.meshParts]
    rw [meshDetails_analyze]
    exact List.mem_map.2 ⟨detailOf ⟨x, g, m, sk, mo⟩,
      List.mem_map.2 ⟨⟨x, g, m, sk, mo⟩,
        List.mem_filterMap.2 ⟨_, hcmem, hact⟩, rfl⟩, rfl⟩
  have hne1 : f1 u ≠ u := fun h =>
    hfresh (f1 u) (by simp) (by rw [h]; exact hu_mem)
  have hne2 : f2 (f1 u) ≠ u := fun h =>
    hfresh (f2 (f1 u)) (by simp) (by rw [h]; exact hu_mem)
  have hne3 : f3 (f1 u) ≠ u := fun h =>
    hfresh (f3 (f1 u)) (by simp) (by rw [h]; exact hu_mem)
  refine ⟨?_, ?_, ?_⟩
  · rw [hfst]
    show some (some (⟨"lod", none⟩ : ProvTag), [tc.tag, tc.tag, tc.tag]) =
      some (some (⟨"lod", none⟩ : ProvTag), [none, none, none])
    rw [htag]
  · intro x hx
    rw [hscene]
    simp only [List.mem_cons, List.not_mem_nil, or_false] at hx
    rcases hx with rfl | rfl | rfl
    · exact hmk (f1 u) hne1 (List.Mem.tail _ (List.Mem.head _))
    · exact hmk (f2 (f1 u)) hne2
        (List.Mem.tail _ (List.Mem.tail _ (List.Mem.head _)))
    · exact hmk (f3 (f1 u)) hne3
        (List.Mem.tail _ (List.Mem.tail _ (List.Mem.tail _ (List.Mem.head _))))
  · rw [hscene, geomCountOf_analyze]
    exact hC

theorem c9_lod_clones_reanalyzed_witness :
    (((LODEngine.runLOD exScene1 "a" "lod" (fun _ => "lv0") (fun _ => "lv1")
        (fun _ => "lv2")).1).map
        (fun l => (l.core.tag, l.children.toList.map (fun ch => ch.core.tag)))
      = some (some ⟨"lod", none⟩, [none, none, none]))
    ∧ ["lv0", "lv1", "lv2"] ⊆
        (SceneAnalyzer.analyze (LODEngine.runLOD exScene1 "a" "lod"
          (fun _ => "lv0") (fun _ => "lv1")
          (fun _ => "lv2")).2).meshDetails.map MeshDetail.uuid
    ∧ geomCountOf (SceneAnalyzer.analyze (LODEngine.runLOD exScene1 "a" "lod"
        (fun _ => "lv0") (fun _ => "lv1") (fun _ => "lv2")).2) "geo1" = 3 :=
  c9_lod_clones_reanalyzed exScene1 "a" "lod" "root" _
    (fun _ => "lv0") (fun _ => "lv1") (fun _ => "lv2") _
    ⟨"a", 1, none, .mesh exG exM false false⟩ exG exM false false
    (by decide) rfl rfl rfl rfl rfl rfl
    (by decide) (by decide) (by decide) rfl
    (by decide) (by decide) (by decide)
